import Mathlib

/-!  Shallow embedding of the Actify backend core (src/backend/server.py):
the daily-activity selector, submission ledger, vote/reaction toggles and the
group leaderboard engine, modelled as pure functions over an explicit
document-store state.  Mongo collections become Lean lists kept in insertion
order; `find_one` becomes `List.find?`, `update_one` rewrites the first
matching document, `$push` appends, `$pull` filters out every match, Python
`list.remove` erases the first occurrence, and datetimes become natural-number
UTC timestamps counted in seconds.  `random.choice` is modelled by an explicit
index parameter, and each request's `datetime.utcnow()` by a single `now`
parameter.  An uncaught Python exception (dereferencing a document lookup that
returned `None`) is modelled by the `ApiError.crash` constructor.  Opaque
plumbing (password hashing, JWT, photo bytes, HTTP transport) is out of scope;
the authenticated caller arrives as a resolved user record, mirroring
`Depends(get_current_user)`. -/

namespace Actify

/-- Mongo `update_one`: rewrite the first document matching the filter and
leave every other document untouched. -/
def updateFirst (p : α → Bool) (f : α → α) : List α → List α
  | [] => []
  | x :: xs => if p x then f x :: xs else x :: updateFirst p f xs

/-- User document (the fields the core reads or writes). -/
structure UserRec where
  id : String
  username : String
  streak : Nat
  total_points : Nat
  completed_challenges : Nat
deriving Repr, DecidableEq

/-- Group document. -/
structure Group where
  id : String
  name : String
  members : List String
  admins : List String
  max_members : Nat
deriving Repr, DecidableEq

/-- Activity document; `selected_for_date = none` means the activity is still
pending. -/
structure Activity where
  id : String
  group_id : String
  created_by : String
  title : String
  selected_for_date : Option Nat
  is_completed : Bool
deriving Repr, DecidableEq

/-- Submission document.  `reactions` is the emoji-keyed mapping stored as an
insertion-ordered association list, matching a Python dict. -/
structure Submission where
  id : String
  activity_id : String
  user_id : String
  photo_url : String
  caption : Option String
  submitted_at : Nat
  votes : List String
  reactions : List (String × List String)
  is_featured : Bool
deriving Repr, DecidableEq

/-- Notification document (the generated uuid is irrelevant to the core and
omitted). -/
structure NotificationRec where
  user_id : String
  title : String
  message : String
  ntype : String
  link : Option String
deriving Repr, DecidableEq

/-- Leaderboard entry.  The Python model annotates `score: int = 0`, but the
endpoint accumulates `entry.score += reaction_count * 0.5` by plain attribute
assignment, which pydantic does not re-validate, so the computed and returned
score is the fractional value; it is modelled as a rational. -/
structure LeaderboardEntry where
  user_id : String
  group_id : String
  username : String
  score : Rat
  streak : Nat
  rank : Nat
  previous_rank : Nat
  badges : List String
  submissions_count : Nat
  last_active : Option Nat
deriving Repr, DecidableEq

/-- A stored leaderboard-history document. -/
structure Snapshot where
  group_id : String
  created_at : Nat
  entries : List LeaderboardEntry
deriving Repr, DecidableEq

/-- The document store: one list per Mongo collection, in insertion order. -/
structure DB where
  users : List UserRec
  groups : List Group
  activities : List Activity
  submissions : List Submission
  notifications : List NotificationRec
  leaderboard_history : List Snapshot
deriving Repr, DecidableEq

/-- Typed failures of the core endpoints.  `notFound`, `forbidden` and
`badRequest` are the raised `HTTPException`s (404 / 403 / 400, keyed by their
detail strings).  `crash` models an uncaught Python `TypeError` from
dereferencing a lookup that returned `None`. -/
inductive ApiError where
  | notFound (detail : String)
  | forbidden (detail : String)
  | badRequest (detail : String)
  | crash (missing : String)
deriving Repr, DecidableEq

/-- A `crash` is not a typed precondition failure; the three raised
`HTTPException` kinds are. -/
def preconditionFailure : ApiError → Bool
  | .notFound _ => true
  | .forbidden _ => true
  | .badRequest _ => true
  | .crash _ => false

def secondsPerDay : Nat := 86400

/-- Start of the UTC calendar day containing `t`, as in
`datetime(today.year, today.month, today.day)`. -/
def midnightOf (t : Nat) : Nat := t / secondsPerDay * secondsPerDay

/-- The Mongo range query on `selected_for_date`:
`{$gte: midnight(now), $lt: midnight(now) + 1 day}`; a `None` field never
matches a range query. -/
def inDayWindow (now : Nat) : Option Nat → Bool
  | none => false
  | some d => decide (midnightOf now ≤ d ∧ d < midnightOf now + secondsPerDay)

/-- The `create_notification` helper: insert one notification document. -/
def create_notification (db : DB) (user_id title message ntype : String)
    (link : Option String) : DB :=
  { db with notifications :=
      db.notifications ++ [{ user_id, title, message, ntype, link }] }

/-- POST `/activities/select-daily`.  `pick` resolves `random.choice` as an
index into the pending list; `now` stands for both `datetime.utcnow()` calls
of the request. -/
def select_daily_activity (db : DB) (current_user : UserRec) (group_id : String)
    (now : Nat) (pick : Nat) : Except ApiError Activity × DB :=
  match db.groups.find? (fun g => g.id == group_id) with
  | none => (.error (.notFound "Group not found"), db)
  | some group =>
    if !(group.members.contains current_user.id) then
      (.error (.forbidden "Not a member of this group"), db)
    else
      match db.activities.find? (fun a =>
          a.group_id == group_id && inDayWindow now a.selected_for_date) with
      | some today_activity => (.ok today_activity, db)
      | none =>
        match db.activities.filter (fun a =>
            a.group_id == group_id && a.selected_for_date == none) with
        | [] => (.error (.badRequest "No activities available to select"), db)
        | p :: ps =>
          let selected := (p :: ps).get ⟨pick % (p :: ps).length,
            Nat.mod_lt _ (Nat.succ_pos _)⟩
          let stampedActivities := updateFirst (fun a => a.id == selected.id)
            (fun a => { a with selected_for_date := some now }) db.activities
          let db1 := { db with activities := stampedActivities }
          let creator_name :=
            match db.users.find? (fun u => u.id == selected.created_by) with
            | some c => c.username
            | none => "Someone"
          let db2 := group.members.foldl (fun d member_id =>
            if member_id == current_user.id then d
            else create_notification d member_id
              ("New Daily Challenge in " ++ group.name)
              (creator_name ++ "'s activity '" ++ selected.title ++
                "' has been selected for today's challenge!")
              "challenge" (some ("/groups/" ++ group_id))) db1
          (.ok { selected with selected_for_date := some now }, db2)

/-- POST `/submissions`.  `photo_url` stands for the stored upload reference;
`new_id` for the generated uuid.  The group document fetched after the
activity-exists check is dereferenced in the source without a `None` check,
hence the `crash "group"` branch. -/
def create_submission (db : DB) (current_user : UserRec) (activity_id : String)
    (photo_url : String) (caption : Option String) (now : Nat) (new_id : String) :
    Except ApiError Submission × DB :=
  match db.activities.find? (fun a => a.id == activity_id) with
  | none => (.error (.notFound "Activity not found"), db)
  | some activity =>
    match db.groups.find? (fun g => g.id == activity.group_id) with
    | none => (.error (.crash "group"), db)
    | some group =>
      if !(group.members.contains current_user.id) then
        (.error (.forbidden "Not a member of this group"), db)
      else if activity.selected_for_date == none then
        (.error (.badRequest "Activity has not been selected for a challenge day"), db)
      else
        match db.submissions.find? (fun s =>
            s.activity_id == activity_id && s.user_id == current_user.id) with
        | some _ => (.error (.badRequest "Already submitted for this activity"), db)
        | none =>
          let submission : Submission :=
            { id := new_id, activity_id := activity_id, user_id := current_user.id,
              photo_url := photo_url, caption := caption, submitted_at := now,
              votes := [], reactions := [], is_featured := false }
          let db1 := { db with submissions := db.submissions ++ [submission] }
          let bumpedUsers := updateFirst (fun u => u.id == current_user.id)
            (fun u => { u with completed_challenges := u.completed_challenges + 1 })
            db1.users
          let db2 := { db1 with users := bumpedUsers }
          let completedActivities := updateFirst (fun a => a.id == activity_id)
            (fun a => { a with is_completed := true }) db2.activities
          let db3 :=
            if group.members.length ≤
                (db2.submissions.filter (fun s => s.activity_id == activity_id)).length then
              { db2 with activities := completedActivities }
            else db2
          let db4 := group.members.foldl (fun d member_id =>
            if member_id != current_user.id && group.admins.contains member_id then
              create_notification d member_id
                ("New Submission in " ++ group.name)
                (current_user.username ++
                  " has submitted a photo for the challenge '" ++ activity.title ++ "'!")
                "submission"
                (some ("/groups/" ++ group.id ++ "/activities/" ++ activity_id ++
                  "/submissions"))
            else d) db3
          (.ok submission, db4)

/-- POST `/submissions/{submission_id}/vote`.  `$pull` removes every matching
vote, `$push` appends; the +1 lifetime point is awarded only on the add branch
when the voter is not the author and the author's user document resolves. -/
def vote_submission (db : DB) (current_user : UserRec) (submission_id : String) :
    Except ApiError Submission × DB :=
  match db.submissions.find? (fun s => s.id == submission_id) with
  | none => (.error (.notFound "Submission not found"), db)
  | some submission =>
    match db.activities.find? (fun a => a.id == submission.activity_id) with
    | none => (.error (.crash "activity"), db)
    | some activity =>
      match db.groups.find? (fun g => g.id == activity.group_id) with
      | none => (.error (.crash "group"), db)
      | some group =>
        if !(group.members.contains current_user.id) then
          (.error (.forbidden "Not a member of this group"), db)
        else
          let vote_added := !(submission.votes.contains current_user.id)
          let pulledSubs := updateFirst (fun s => s.id == submission_id)
            (fun s => { s with votes := s.votes.filter (fun v => v != current_user.id) })
            db.submissions
          let pushedSubs := updateFirst (fun s => s.id == submission_id)
            (fun s => { s with votes := s.votes ++ [current_user.id] })
            db.submissions
          let db1 :=
            if submission.votes.contains current_user.id then
              { db with submissions := pulledSubs }
            else
              { db with submissions := pushedSubs }
          match db1.submissions.find? (fun s => s.id == submission_id) with
          | none => (.error (.crash "submission"), db1)
          | some updated_submission =>
            let db2 :=
              if vote_added && submission.user_id != current_user.id then
                match db1.users.find? (fun u => u.id == submission.user_id) with
                | some _ =>
                  let d := create_notification db1 submission.user_id
                    "Your submission got a vote!"
                    (current_user.username ++ " voted for your submission in " ++
                      group.name ++ ".")
                    "vote"
                    (some ("/groups/" ++ group.id ++ "/activities/" ++ activity.id ++
                      "/submissions"))
                  let pointedUsers := updateFirst (fun u => u.id == submission.user_id)
                    (fun u => { u with total_points := u.total_points + 1 }) d.users
                  { d with users := pointedUsers }
                | none => db1
              else db1
            (.ok updated_submission, db2)

/-- Lookup of an emoji key in the reaction mapping. -/
def lookupReaction (reactions : List (String × List String)) (emoji : String) :
    Option (List String) :=
  (reactions.find? (fun r => r.1 == emoji)).map (fun r => r.2)

/-- Overwrite the value stored under an existing emoji key. -/
def setReaction (reactions : List (String × List String)) (emoji : String)
    (users : List String) : List (String × List String) :=
  updateFirst (fun r => r.1 == emoji) (fun r => (r.1, users)) reactions

/-- Delete an emoji key entirely (`del submission["reactions"][emoji]`). -/
def removeReaction (reactions : List (String × List String)) (emoji : String) :
    List (String × List String) :=
  reactions.eraseP (fun r => r.1 == emoji)

/-- The in-place dict surgery of `react_to_submission`: ensure the key exists,
then remove the user (dropping the key if its set becomes empty) or append the
user. -/
def toggleReaction (reactions : List (String × List String)) (emoji user_id : String) :
    List (String × List String) :=
  let reactions1 :=
    if (lookupReaction reactions emoji).isNone then reactions ++ [(emoji, [])]
    else reactions
  let cur := (lookupReaction reactions1 emoji).getD []
  if cur.contains user_id then
    let remaining := cur.erase user_id
    if remaining.isEmpty then removeReaction reactions1 emoji
    else setReaction reactions1 emoji remaining
  else
    setReaction reactions1 emoji (cur ++ [user_id])

/-- POST `/submissions/{submission_id}/react`. -/
def react_to_submission (db : DB) (current_user : UserRec)
    (submission_id emoji : String) : Except ApiError Submission × DB :=
  match db.submissions.find? (fun s => s.id == submission_id) with
  | none => (.error (.notFound "Submission not found"), db)
  | some submission =>
    match db.activities.find? (fun a => a.id == submission.activity_id) with
    | none => (.error (.crash "activity"), db)
    | some activity =>
      match db.groups.find? (fun g => g.id == activity.group_id) with
      | none => (.error (.crash "group"), db)
      | some group =>
        if !(group.members.contains current_user.id) then
          (.error (.forbidden "Not a member of this group"), db)
        else
          let toggledSubs := updateFirst (fun s => s.id == submission_id)
            (fun s => { s with reactions := toggleReaction submission.reactions emoji current_user.id })
            db.submissions
          let db1 := { db with submissions := toggledSubs }
          match db1.submissions.find? (fun s => s.id == submission_id) with
          | none => (.error (.crash "submission"), db1)
          | some updated_submission => (.ok updated_submission, db1)

/-- Points contributed by one submission to its author's leaderboard score:
1 for the submission, 1 per vote, 0.5 per reaction summed across emoji keys. -/
def submissionPoints (s : Submission) : Rat :=
  1 + (s.votes.length : Rat) +
    (((s.reactions.map (fun r => r.2.length)).sum : Rat)) * (1 / 2)

/-- Badge thresholds on the in-group submission count; all applicable tiers
are included. -/
def badgesFor (submissions_count : Nat) : List String :=
  (if 10 ≤ submissions_count then ["regular"] else []) ++
  (if 30 ≤ submissions_count then ["committed"] else []) ++
  (if 50 ≤ submissions_count then ["champion"] else [])

/-- The latest stored snapshot for a group (`find_one` sorted by `created_at`
descending; earlier document wins a timestamp tie). -/
def latestSnapshot (db : DB) (group_id : String) : Option Snapshot :=
  (db.leaderboard_history.filter (fun s => s.group_id == group_id)).foldl
    (fun best s =>
      match best with
      | none => some s
      | some b => if b.created_at < s.created_at then some s else some b) none

/-- Rank this user held in the previous snapshot, defaulting to 0. -/
def previousRankOf (prev : Option Snapshot) (user_id : String) : Nat :=
  match prev with
  | none => 0
  | some snap =>
    match snap.entries.find? (fun e => e.user_id == user_id) with
    | some e => e.rank
    | none => 0

/-- Timestamp of the user's most recent submission anywhere in the system. -/
def lastActiveOf (db : DB) (user_id : String) : Option Nat :=
  ((db.submissions.filter (fun s => s.user_id == user_id)).map
    (fun s => s.submitted_at)).max?

/-- Ids of the group's activities. -/
def groupActivityIds (db : DB) (group_id : String) : List String :=
  (db.activities.filter (fun a => a.group_id == group_id)).map (fun a => a.id)

/-- The zero-score entry built for one group member; `none` when the member id
resolves to no user document (such members are skipped). -/
def buildEntry (db : DB) (group_id : String) (prev : Option Snapshot)
    (member_id : String) : Option LeaderboardEntry :=
  (db.users.find? (fun u => u.id == member_id)).map (fun user =>
    let submissions_count := (db.submissions.filter (fun s =>
      s.user_id == user.id &&
        (groupActivityIds db group_id).contains s.activity_id)).length
    { user_id := user.id, group_id := group_id, username := user.username,
      score := 0, streak := user.streak, rank := 0,
      previous_rank := previousRankOf prev user.id,
      badges := badgesFor submissions_count,
      submissions_count := submissions_count,
      last_active := lastActiveOf db user.id })

/-- The scoring pass: for every activity of the group, for every submission on
that activity, add the submission's points to every entry whose user matches
(the Python loop carries no break). -/
def scoreEntries (db : DB) (group_id : String) (entries : List LeaderboardEntry) :
    List LeaderboardEntry :=
  (db.activities.filter (fun a => a.group_id == group_id)).foldl
    (fun es activity =>
      (db.submissions.filter (fun s => s.activity_id == activity.id)).foldl
        (fun es2 submission =>
          es2.map (fun e =>
            if e.user_id == submission.user_id then
              { e with score := e.score + submissionPoints submission }
            else e)) es) entries

/-- Stable descending insertion: an entry moves ahead only of strictly
lower-scored entries, so equal scores keep their existing order. -/
def insertByScore (x : LeaderboardEntry) : List LeaderboardEntry → List LeaderboardEntry
  | [] => [x]
  | y :: ys => if y.score ≤ x.score then x :: y :: ys else y :: insertByScore x ys

/-- Denotation of `leaderboard.sort(key=lambda x: x.score, reverse=True)`:
the stable descending sort on scores. -/
def sortByScoreDesc : List LeaderboardEntry → List LeaderboardEntry
  | [] => []
  | x :: xs => insertByScore x (sortByScoreDesc xs)

/-- Dense 1-based ranks assigned by sorted position. -/
def assignRanks : Nat → List LeaderboardEntry → List LeaderboardEntry
  | _, [] => []
  | i, e :: es => { e with rank := i } :: assignRanks (i + 1) es

/-- GET `/groups/{group_id}/leaderboard`: build one zero-score entry per
resolvable member (in member-list order), run the scoring pass, sort stably by
score descending, assign dense ranks, append a history snapshot, and return
the ranked list. -/
def get_group_leaderboard (db : DB) (current_user : UserRec) (group_id : String)
    (now : Nat) : Except ApiError (List LeaderboardEntry) × DB :=
  match db.groups.find? (fun g => g.id == group_id) with
  | none => (.error (.notFound "Group not found"), db)
  | some group =>
    if !(group.members.contains current_user.id) then
      (.error (.forbidden "Not a member of this group"), db)
    else
      let prev := latestSnapshot db group_id
      let entries0 := group.members.filterMap (buildEntry db group_id prev)
      let ranked := assignRanks 1 (sortByScoreDesc (scoreEntries db group_id entries0))
      (.ok ranked,
        { db with leaderboard_history := db.leaderboard_history ++
            [{ group_id := group_id, created_at := now, entries := ranked }] })

/-- Specification-side scoring formula: a member's leaderboard score is the
sum, over that member's submissions on the group's activities, of 1 point for
the submission plus 1 per vote plus 0.5 per reaction. -/
def groupScore (db : DB) (group_id user_id : String) : Rat :=
  ((db.submissions.filter (fun s =>
      s.user_id == user_id &&
        (groupActivityIds db group_id).contains s.activity_id)).map
    submissionPoints).sum

/-- The submission document a successful Submit inserts (the dict literal of
the source, with the upload reference and generated uuid as parameters). -/
def newSubmission (cu : UserRec) (aid photo : String) (cap : Option String)
    (now : Nat) (nid : String) : Submission :=
  { id := nid, activity_id := aid, user_id := cu.id, photo_url := photo,
    caption := cap, submitted_at := now, votes := [], reactions := [],
    is_featured := false }

/-- At most one submission document exists per (activity, author) pair. -/
def atMostOneSubmissionPer (db : DB) : Prop :=
  ∀ aid uid : String,
    (db.submissions.filter (fun s =>
      s.activity_id == aid && s.user_id == uid)).length ≤ 1

/-- The five non-notification collections of the store agree. -/
def sameCore (d e : DB) : Prop :=
  d.users = e.users ∧ d.groups = e.groups ∧ d.activities = e.activities ∧
    d.submissions = e.submissions ∧ d.leaderboard_history = e.leaderboard_history

/-! Shared concrete fixtures used by witnesses and counterexamples. -/

/-- An empty document store. -/
def emptyDB : DB :=
  { users := [], groups := [], activities := [], submissions := [],
    notifications := [], leaderboard_history := [] }

def userA : UserRec :=
  { id := "A", username := "alice", streak := 0, total_points := 0,
    completed_challenges := 0 }

def userB : UserRec :=
  { id := "B", username := "bob", streak := 0, total_points := 0,
    completed_challenges := 0 }

/-- Group g with single member and admin A. -/
def groupGA : Group :=
  { id := "g", name := "G", members := ["A"], admins := ["A"], max_members := 15 }

/-- A still-pending activity of group g. -/
def pendingX : Activity :=
  { id := "x", group_id := "g", created_by := "A", title := "t",
    selected_for_date := none, is_completed := false }

/-- Store with group g, member A, and the pending activity x. -/
def pendingDB : DB :=
  { users := [userA, userB], groups := [groupGA], activities := [pendingX],
    submissions := [], notifications := [], leaderboard_history := [] }

/-- An activity whose owning group id resolves to no group document. -/
def ghostActivity : Activity :=
  { id := "x", group_id := "ghost", created_by := "A", title := "t",
    selected_for_date := some 0, is_completed := false }

/-- Store holding only user A and the dangling-group activity. -/
def ghostDB : DB :=
  { users := [userA], groups := [], activities := [ghostActivity],
    submissions := [], notifications := [], leaderboard_history := [] }

/-- Group g with members A and B, admin A. -/
def groupGAB : Group :=
  { id := "g", name := "G", members := ["A", "B"], admins := ["A"],
    max_members := 15 }

/-- An activity of group g already selected for day 0. -/
def selectedX : Activity :=
  { id := "x", group_id := "g", created_by := "A", title := "t",
    selected_for_date := some 0, is_completed := false }

/-- Store with group g, members A and B, and the selected activity x. -/
def selectedDB : DB :=
  { users := [userA, userB], groups := [groupGAB], activities := [selectedX],
    submissions := [], notifications := [], leaderboard_history := [] }

/-- Group g whose only remaining member is A. -/
def staleGroup : Group :=
  { id := "g", name := "G", members := ["A"], admins := ["A"], max_members := 15 }

/-- A submission for activity x left behind by departed member B. -/
def subB : Submission :=
  { id := "sb", activity_id := "x", user_id := "B", photo_url := "p",
    caption := none, submitted_at := 1, votes := [], reactions := [],
    is_featured := false }

/-- A submission for activity x left behind by departed member C. -/
def subC : Submission :=
  { id := "sc", activity_id := "x", user_id := "C", photo_url := "p",
    caption := none, submitted_at := 2, votes := [], reactions := [],
    is_featured := false }

/-- Store where two past submitters of x have since been removed from g, so
the stored submission count can exceed the current member count. -/
def staleDB : DB :=
  { users := [userA], groups := [staleGroup], activities := [selectedX],
    submissions := [subB, subC], notifications := [], leaderboard_history := [] }

/-- A submission on activity x authored by B, with no votes or reactions. -/
def subX1 : Submission :=
  { id := "s1", activity_id := "x", user_id := "B", photo_url := "p",
    caption := none, submitted_at := 3, votes := [], reactions := [],
    is_featured := false }

/-- Store with group g, members A and B, selected activity x and B's
submission s1. -/
def voteDB : DB :=
  { users := [userA, userB], groups := [groupGAB], activities := [selectedX],
    submissions := [subX1], notifications := [], leaderboard_history := [] }

/-- Option-valued user sets agree: both absent, or both present with the
same members. -/
def sameUserSet : Option (List String) → Option (List String) → Prop
  | none, none => True
  | some a, some b => ∀ u, u ∈ a ↔ u ∈ b
  | _, _ => False

/-- At most one activity of the group carries a selection stamp inside any
one UTC day window. -/
def atMostOneSelectedPerDay (db : DB) (gid : String) : Prop :=
  ∀ t : Nat,
    (db.activities.filter (fun a =>
      a.group_id == gid && inDayWindow t a.selected_for_date)).length ≤ 1

/-- One activity's contribution to a user's score: points of the user's
submissions on that activity. -/
def perActivityScore (db : DB) (uid aid : String) : Rat :=
  (((db.submissions.filter (fun s => s.activity_id == aid)).filter
    (fun s => uid == s.user_id)).map submissionPoints).sum

/-- Total of the per-activity contributions over the group's activities. -/
def scoreByActivities (db : DB) (gid uid : String) : Rat :=
  ((db.activities.filter (fun a => a.group_id == gid)).map
    (fun a => perActivityScore db uid a.id)).sum

/-- A submission on activity x by A with two votes and one single-user
reaction: worth 1 + 2 + 0.5 points. -/
def subRich : Submission :=
  { id := "sr", activity_id := "x", user_id := "A", photo_url := "p",
    caption := none, submitted_at := 4, votes := ["B", "C"],
    reactions := [("fire", ["B"])], is_featured := false }

/-- Store with members A and B where A has the voted-and-reacted submission
and B a bare one. -/
def richDB : DB :=
  { users := [userA, userB], groups := [groupGAB], activities := [selectedX],
    submissions := [subRich, subX1], notifications := [],
    leaderboard_history := [] }

/-- The leaderboard the endpoint returns on `richDB`. -/
def richL : List LeaderboardEntry :=
  ((get_group_leaderboard richDB userA "g" 99).1).toOption.getD []

/-- Store with members A and B and no activity or submission at all: both
members tie at score zero. -/
def tieDB : DB :=
  { users := [userA, userB], groups := [groupGAB], activities := [],
    submissions := [], notifications := [], leaderboard_history := [] }

/-- The leaderboard the endpoint returns on `tieDB`. -/
def tieL : List LeaderboardEntry :=
  ((get_group_leaderboard tieDB userA "g" 50).1).toOption.getD []

end Actify

namespace Actify

/-! Basic facts about the document-store helpers. -/

theorem updateFirst_nil (p : α → Bool) (f : α → α) : updateFirst p f [] = [] := rfl

theorem updateFirst_cons (p : α → Bool) (f : α → α) (x : α) (xs : List α) :
    updateFirst p f (x :: xs) =
      if p x then f x :: xs else x :: updateFirst p f xs := rfl

theorem updateFirst_append_left {p : α → Bool} {f : α → α} {l₁ : List α}
    (l₂ : List α) (h : ∀ y ∈ l₁, p y = false) :
    updateFirst p f (l₁ ++ l₂) = l₁ ++ updateFirst p f l₂ := by
  induction l₁ with
  | nil => simp
  | cons a as ih =>
    have ha : p a = false := h a (List.mem_cons_self a as)
    have ih' := ih (fun y hy => h y (List.mem_cons_of_mem a hy))
    simp [updateFirst_cons, ha, ih']

theorem find?_decomp {p : α → Bool} {l : List α} {x : α} (h : l.find? p = some x) :
    ∃ l₁ l₂, l = l₁ ++ x :: l₂ ∧ ∀ y ∈ l₁, p y = false := by
  induction l with
  | nil => simp [List.find?] at h
  | cons a as ih =>
    rw [List.find?_cons] at h
    cases hpa : p a with
    | true =>
      rw [hpa] at h
      simp only [Option.some.injEq] at h
      exact ⟨[], as, by simp [h], by simp⟩
    | false =>
      rw [hpa] at h
      obtain ⟨l₁, l₂, rfl, hall⟩ := ih h
      exact ⟨a :: l₁, l₂, rfl, by
        intro y hy
        rcases List.mem_cons.mp hy with rfl | hy
        · exact hpa
        · exact hall y hy⟩

theorem find?_append_left_none {p : α → Bool} {l₁ : List α}
    (h : ∀ y ∈ l₁, p y = false) (l₂ : List α) :
    (l₁ ++ l₂).find? p = l₂.find? p := by
  rw [List.find?_append]
  have : l₁.find? p = none := List.find?_eq_none.mpr (by simp_all)
  simp [this]

theorem find?_updateFirst_self {p : α → Bool} {f : α → α}
    (hpf : ∀ a, p (f a) = p a) (l : List α) :
    (updateFirst p f l).find? p = (l.find? p).map f := by
  induction l with
  | nil => simp [updateFirst]
  | cons a as ih =>
    cases hpa : p a with
    | true => simp [updateFirst_cons, List.find?_cons, hpf, hpa]
    | false => simp [updateFirst_cons, List.find?_cons, hpf, hpa, ih]

theorem eraseP_append_left_none {p : α → Bool} {l₁ : List α}
    (h : ∀ y ∈ l₁, p y = false) (l₂ : List α) :
    (l₁ ++ l₂).eraseP p = l₁ ++ l₂.eraseP p := by
  induction l₁ with
  | nil => simp
  | cons a as ih =>
    have ha := h a (by simp)
    simp only [List.cons_append, List.eraseP_cons, ha, cond_false]
    simp [ih (fun y hy => h y (by simp [hy]))]

theorem mem_updateFirst {p : α → Bool} {f : α → α} {l : List α} {y : α}
    (h : y ∈ updateFirst p f l) : y ∈ l ∨ ∃ x ∈ l, y = f x := by
  induction l with
  | nil => simp [updateFirst] at h
  | cons a as ih =>
    rw [updateFirst_cons] at h
    by_cases hpa : p a
    · rw [if_pos hpa] at h
      rcases List.mem_cons.mp h with rfl | h
      · exact Or.inr ⟨a, by simp, rfl⟩
      · exact Or.inl (by simp [h])
    · rw [if_neg hpa] at h
      rcases List.mem_cons.mp h with rfl | h
      · exact Or.inl (by simp)
      · rcases ih h with h | ⟨x, hx, rfl⟩
        · exact Or.inl (by simp [h])
        · exact Or.inr ⟨x, by simp [hx], rfl⟩

/-! Facts about the UTC day window. -/

theorem midnightOf_le (t : Nat) : midnightOf t ≤ t := Nat.div_mul_le_self t secondsPerDay

theorem lt_midnightOf_add (t : Nat) : t < midnightOf t + secondsPerDay := by
  have h : 0 < secondsPerDay := by decide
  have hmod : t % secondsPerDay < secondsPerDay := Nat.mod_lt _ h
  have hdm : midnightOf t + t % secondsPerDay = t := by
    rw [midnightOf, Nat.mul_comm]
    exact Nat.div_add_mod t secondsPerDay
  omega

theorem inDayWindow_self (t : Nat) : inDayWindow t (some t) = true := by
  simp [inDayWindow, midnightOf_le, lt_midnightOf_add]

theorem inDayWindow_iff_midnight_eq {t d : Nat} :
    inDayWindow t (some d) = true ↔ midnightOf d = midnightOf t := by
  constructor
  · intro h
    simp only [inDayWindow, decide_eq_true_eq] at h
    obtain ⟨h1, h2⟩ := h
    have hq : d / secondsPerDay = t / secondsPerDay := by
      apply Nat.div_eq_of_lt_le
      · exact h1
      · calc d < midnightOf t + secondsPerDay := h2
          _ = (t / secondsPerDay + 1) * secondsPerDay := by
            rw [midnightOf, Nat.add_mul, Nat.one_mul]
    simp [midnightOf, hq]
  · intro h
    simp only [inDayWindow, decide_eq_true_eq]
    constructor
    · calc midnightOf t = midnightOf d := h.symm
        _ ≤ d := midnightOf_le d
    · calc d < midnightOf d + secondsPerDay := lt_midnightOf_add d
        _ = midnightOf t + secondsPerDay := by rw [h]

theorem inDayWindow_congr {t t' : Nat} (h : midnightOf t' = midnightOf t)
    (o : Option Nat) : inDayWindow t' o = inDayWindow t o := by
  cases o with
  | none => rfl
  | some d => simp [inDayWindow, h]

end Actify


namespace Actify

/-! Outcome analyses: each endpoint either fails a typed precondition check
and returns the store untouched, crashes on a dangling reference, or
succeeds.  Every `HTTPException` site in the source sits before the first
write of its request handler. -/

theorem select_daily_outcomes (db : DB) (cu : UserRec) (gid : String)
    (now pick : Nat) :
    (∃ e, preconditionFailure e = true ∧
      select_daily_activity db cu gid now pick = (.error e, db)) ∨
    (∃ v st, select_daily_activity db cu gid now pick = (.ok v, st)) := by
  unfold select_daily_activity
  split
  · refine Or.inl ⟨_, ?_, rfl⟩; rfl
  · split
    · refine Or.inl ⟨_, ?_, rfl⟩; rfl
    · split
      · exact Or.inr ⟨_, _, rfl⟩
      · split
        · refine Or.inl ⟨_, ?_, rfl⟩; rfl
        · exact Or.inr ⟨_, _, rfl⟩

theorem create_submission_outcomes (db : DB) (cu : UserRec)
    (aid photo : String) (cap : Option String) (now : Nat) (nid : String) :
    (∃ e, preconditionFailure e = true ∧
      create_submission db cu aid photo cap now nid = (.error e, db)) ∨
    (∃ s, create_submission db cu aid photo cap now nid = (.error (.crash s), db)) ∨
    (∃ v st, create_submission db cu aid photo cap now nid = (.ok v, st)) := by
  unfold create_submission
  split
  · refine Or.inl ⟨_, ?_, rfl⟩; rfl
  · split
    · exact Or.inr (Or.inl ⟨_, rfl⟩)
    · split
      · refine Or.inl ⟨_, ?_, rfl⟩; rfl
      · split
        · refine Or.inl ⟨_, ?_, rfl⟩; rfl
        · split
          · refine Or.inl ⟨_, ?_, rfl⟩; rfl
          · exact Or.inr (Or.inr ⟨_, _, rfl⟩)

theorem find?_refetch (p : α → Bool) (f : α → α) (hpf : ∀ a, p (f a) = p a)
    {l : List α} {x : α} (hx : l.find? p = some x) :
    (updateFirst p f l).find? p = some (f x) := by
  rw [find?_updateFirst_self hpf, hx]; rfl

theorem vote_submission_outcomes (db : DB) (cu : UserRec) (sid : String) :
    (∃ e, preconditionFailure e = true ∧
      vote_submission db cu sid = (.error e, db)) ∨
    (∃ s st, vote_submission db cu sid = (.error (.crash s), st)) ∨
    (∃ v st, vote_submission db cu sid = (.ok v, st)) := by
  unfold vote_submission
  split
  · refine Or.inl ⟨_, ?_, rfl⟩; rfl
  · rename_i submission hs
    split
    · exact Or.inr (Or.inl ⟨_, _, rfl⟩)
    · split
      · exact Or.inr (Or.inl ⟨_, _, rfl⟩)
      · split
        · refine Or.inl ⟨_, ?_, rfl⟩; rfl
        · cases hv : submission.votes.contains cu.id with
          | true =>
            simp only [hv, if_true]
            rw [find?_refetch (fun s : Submission => s.id == sid)
              (fun s : Submission => { s with votes := s.votes.filter (fun v => v != cu.id) })
              (fun a => rfl) hs]
            exact Or.inr (Or.inr ⟨_, _, rfl⟩)
          | false =>
            simp only [hv, Bool.false_eq_true, if_false]
            rw [find?_refetch (fun s : Submission => s.id == sid)
              (fun s : Submission => { s with votes := s.votes ++ [cu.id] })
              (fun a => rfl) hs]
            exact Or.inr (Or.inr ⟨_, _, rfl⟩)
end Actify

namespace Actify

theorem react_outcomes (db : DB) (cu : UserRec) (sid emoji : String) :
    (∃ e, preconditionFailure e = true ∧
      react_to_submission db cu sid emoji = (.error e, db)) ∨
    (∃ s st, react_to_submission db cu sid emoji = (.error (.crash s), st)) ∨
    (∃ v st, react_to_submission db cu sid emoji = (.ok v, st)) := by
  unfold react_to_submission
  split
  · refine Or.inl ⟨_, ?_, rfl⟩; rfl
  · rename_i submission hs
    split
    · exact Or.inr (Or.inl ⟨_, _, rfl⟩)
    · split
      · exact Or.inr (Or.inl ⟨_, _, rfl⟩)
      · split
        · refine Or.inl ⟨_, ?_, rfl⟩; rfl
        · dsimp only
          rw [find?_refetch (fun s : Submission => s.id == sid)
            (fun s : Submission =>
              { s with reactions := toggleReaction submission.reactions emoji cu.id })
            (fun a => rfl) hs]
          exact Or.inr (Or.inr ⟨_, _, rfl⟩)

theorem leaderboard_outcomes (db : DB) (cu : UserRec) (gid : String) (now : Nat) :
    (∃ e, preconditionFailure e = true ∧
      get_group_leaderboard db cu gid now = (.error e, db)) ∨
    (∃ v st, get_group_leaderboard db cu gid now = (.ok v, st)) := by
  unfold get_group_leaderboard
  split
  · refine Or.inl ⟨_, ?_, rfl⟩; rfl
  · split
    · refine Or.inl ⟨_, ?_, rfl⟩; rfl
    · exact Or.inr ⟨_, _, rfl⟩

theorem select_error_frame (db : DB) (cu : UserRec) (gid : String)
    (now pick : Nat) (err : ApiError)
    (h : (select_daily_activity db cu gid now pick).1 = .error err) :
    (select_daily_activity db cu gid now pick).2 = db := by
  rcases select_daily_outcomes db cu gid now pick with ⟨e, hp, heq⟩ | ⟨v, st, heq⟩
  · rw [heq]
  · rw [heq] at h; simp at h

theorem submit_error_frame (db : DB) (cu : UserRec) (aid photo : String)
    (cap : Option String) (now : Nat) (nid : String) (err : ApiError)
    (h : (create_submission db cu aid photo cap now nid).1 = .error err) :
    (create_submission db cu aid photo cap now nid).2 = db := by
  rcases create_submission_outcomes db cu aid photo cap now nid with
    ⟨e, hp, heq⟩ | ⟨s, heq⟩ | ⟨v, st, heq⟩
  · rw [heq]
  · rw [heq]
  · rw [heq] at h; simp at h

theorem vote_error_frame (db : DB) (cu : UserRec) (sid : String) (err : ApiError)
    (hpre : preconditionFailure err = true)
    (h : (vote_submission db cu sid).1 = .error err) :
    (vote_submission db cu sid).2 = db := by
  rcases vote_submission_outcomes db cu sid with
    ⟨e, hp, heq⟩ | ⟨s, st, heq⟩ | ⟨v, st, heq⟩
  · rw [heq]
  · rw [heq] at h
    simp only [Prod.fst] at h
    cases h
    simp [preconditionFailure] at hpre
  · rw [heq] at h; simp at h

theorem react_error_frame (db : DB) (cu : UserRec) (sid emoji : String)
    (err : ApiError) (hpre : preconditionFailure err = true)
    (h : (react_to_submission db cu sid emoji).1 = .error err) :
    (react_to_submission db cu sid emoji).2 = db := by
  rcases react_outcomes db cu sid emoji with
    ⟨e, hp, heq⟩ | ⟨s, st, heq⟩ | ⟨v, st, heq⟩
  · rw [heq]
  · rw [heq] at h
    simp only [Prod.fst] at h
    cases h
    simp [preconditionFailure] at hpre
  · rw [heq] at h; simp at h

theorem leaderboard_error_frame (db : DB) (cu : UserRec) (gid : String)
    (now : Nat) (err : ApiError)
    (h : (get_group_leaderboard db cu gid now).1 = .error err) :
    (get_group_leaderboard db cu gid now).2 = db := by
  rcases leaderboard_outcomes db cu gid now with ⟨e, hp, heq⟩ | ⟨v, st, heq⟩
  · rw [heq]
  · rw [heq] at h; simp at h

end Actify

namespace Actify

/-- C8: for every core operation (SelectDaily, Submit, ToggleVote,
ToggleReaction, ComputeLeaderboard), when a precondition check fails the
operation performs no mutation at all: the store returned with the error is
exactly the input store, so activities, submissions, user stats, snapshots
and notifications are all unchanged. -/
theorem precondition_failures_mutate_nothing (db : DB) (cu : UserRec)
    (gid aid sid emoji photo : String) (cap : Option String)
    (now pick : Nat) (nid : String) :
    (∀ err, preconditionFailure err = true →
      (select_daily_activity db cu gid now pick).1 = .error err →
      (select_daily_activity db cu gid now pick).2 = db) ∧
    (∀ err, preconditionFailure err = true →
      (create_submission db cu aid photo cap now nid).1 = .error err →
      (create_submission db cu aid photo cap now nid).2 = db) ∧
    (∀ err, preconditionFailure err = true →
      (vote_submission db cu sid).1 = .error err →
      (vote_submission db cu sid).2 = db) ∧
    (∀ err, preconditionFailure err = true →
      (react_to_submission db cu sid emoji).1 = .error err →
      (react_to_submission db cu sid emoji).2 = db) ∧
    (∀ err, preconditionFailure err = true →
      (get_group_leaderboard db cu gid now).1 = .error err →
      (get_group_leaderboard db cu gid now).2 = db) :=
  ⟨fun err _ h => select_error_frame db cu gid now pick err h,
   fun err _ h => submit_error_frame db cu aid photo cap now nid err h,
   fun err hpre h => vote_error_frame db cu sid err hpre h,
   fun err hpre h => react_error_frame db cu sid emoji err hpre h,
   fun err _ h => leaderboard_error_frame db cu gid now err h⟩

/-- Witness for C8: on the empty store, every operation fails its first
precondition check and hands back the empty store unchanged. -/
theorem precondition_failures_mutate_nothing_witness :
    (select_daily_activity emptyDB userA "g" 0 0).2 = emptyDB ∧
    (create_submission emptyDB userA "x" "p" none 0 "s1").2 = emptyDB ∧
    (vote_submission emptyDB userA "s1").2 = emptyDB ∧
    (react_to_submission emptyDB userA "s1" "fire").2 = emptyDB ∧
    (get_group_leaderboard emptyDB userA "g" 0).2 = emptyDB := by
  have h := precondition_failures_mutate_nothing emptyDB userA "g" "x" "s1"
    "fire" "p" none 0 0 "s1"
  exact ⟨h.1 (.notFound "Group not found") (by decide) (by rfl),
    h.2.1 (.notFound "Activity not found") (by decide) (by rfl),
    h.2.2.1 (.notFound "Submission not found") (by decide) (by rfl),
    h.2.2.2.1 (.notFound "Submission not found") (by decide) (by rfl),
    h.2.2.2.2 (.notFound "Group not found") (by decide) (by rfl)⟩

/-- C7: Submit checks its preconditions in order, each with its own distinct
failure: missing activity gives the 404, a non-member caller gives the 403
regardless of the activity's selection state, a pending activity gives the
not-yet-selected 400, and only then is a duplicate submission reported; in
particular a non-member submitting to a pending activity gets the membership
failure, not the not-yet-selected one. -/
theorem submit_precondition_order (db : DB) (cu : UserRec) (aid photo : String)
    (cap : Option String) (now : Nat) (nid : String) :
    (db.activities.find? (fun a => a.id == aid) = none →
      create_submission db cu aid photo cap now nid =
        (.error (.notFound "Activity not found"), db)) ∧
    (∀ activity group,
      db.activities.find? (fun a => a.id == aid) = some activity →
      db.groups.find? (fun g => g.id == activity.group_id) = some group →
      group.members.contains cu.id = false →
      create_submission db cu aid photo cap now nid =
        (.error (.forbidden "Not a member of this group"), db)) ∧
    (∀ activity group,
      db.activities.find? (fun a => a.id == aid) = some activity →
      db.groups.find? (fun g => g.id == activity.group_id) = some group →
      group.members.contains cu.id = true →
      activity.selected_for_date = none →
      create_submission db cu aid photo cap now nid =
        (.error (.badRequest "Activity has not been selected for a challenge day"), db)) ∧
    (∀ activity group d prior,
      db.activities.find? (fun a => a.id == aid) = some activity →
      db.groups.find? (fun g => g.id == activity.group_id) = some group →
      group.members.contains cu.id = true →
      activity.selected_for_date = some d →
      db.submissions.find? (fun s =>
        s.activity_id == aid && s.user_id == cu.id) = some prior →
      create_submission db cu aid photo cap now nid =
        (.error (.badRequest "Already submitted for this activity"), db)) := by
  refine ⟨?_, ?_, ?_, ?_⟩
  · intro ha
    unfold create_submission
    simp [ha]
  · intro activity group ha hg hm
    unfold create_submission
    simp only [ha, hg, hm]
    simp
  · intro activity group ha hg hm hsel
    unfold create_submission
    simp only [ha, hg, hm, hsel]
    simp
  · intro activity group d prior ha hg hm hsel hdup
    unfold create_submission
    simp only [ha, hg, hm, hsel, hdup]
    simp

/-- Witness for C7: the group has only member A; non-member B submits to the
still-pending activity x and is rejected with the membership failure, not the
not-yet-selected one. -/
theorem submit_precondition_order_witness :
    create_submission pendingDB userB "x" "p" none 0 "s1" =
      (.error (.forbidden "Not a member of this group"), pendingDB) :=
  (submit_precondition_order pendingDB userB "x" "p" none 0 "s1").2.1
    pendingX groupGA (by rfl) (by rfl) (by decide)

/-- C10: for an existing activity whose group id resolves to no group
document, Submit hits the unguarded group dereference (an uncaught crash in
the source), rather than returning a typed not-found or forbidden error. -/
theorem submit_missing_group (db : DB) (cu : UserRec) (aid photo : String)
    (cap : Option String) (now : Nat) (nid : String) (activity : Activity)
    (ha : db.activities.find? (fun a => a.id == aid) = some activity)
    (hg : db.groups.find? (fun g => g.id == activity.group_id) = none) :
    create_submission db cu aid photo cap now nid = (.error (.crash "group"), db) ∧
    (∀ d, (create_submission db cu aid photo cap now nid).1 ≠ .error (.notFound d)) ∧
    (∀ d, (create_submission db cu aid photo cap now nid).1 ≠ .error (.forbidden d)) := by
  have hmain : create_submission db cu aid photo cap now nid =
      (.error (.crash "group"), db) := by
    unfold create_submission
    simp [ha, hg]
  refine ⟨hmain, ?_, ?_⟩
  · intro d hcontra
    rw [hmain] at hcontra
    simp at hcontra
  · intro d hcontra
    rw [hmain] at hcontra
    simp at hcontra

/-- Witness for C10: activity x names group id "ghost", which has no group
document; the submit call ends in the modelled crash. -/
theorem submit_missing_group_witness :
    create_submission ghostDB userA "x" "p" none 0 "s1" =
      (.error (.crash "group"), ghostDB) :=
  (submit_missing_group ghostDB userA "x" "p" none 0 "s1" ghostActivity
    (by rfl) (by rfl)).1

end Actify

namespace Actify

theorem sameCore_refl (d : DB) : sameCore d d := ⟨rfl, rfl, rfl, rfl, rfl⟩

theorem sameCore_trans {a b c : DB} (h1 : sameCore a b) (h2 : sameCore b c) :
    sameCore a c := by
  obtain ⟨u1, g1, a1, s1, l1⟩ := h1
  obtain ⟨u2, g2, a2, s2, l2⟩ := h2
  exact ⟨u1.trans u2, g1.trans g2, a1.trans a2, s1.trans s2, l1.trans l2⟩

/-- A notification fan-out loop touches only the notification collection. -/
theorem foldl_notifyCore (step : DB → String → DB)
    (hstep : ∀ d m, sameCore (step d m) d) :
    ∀ (l : List String) (d : DB), sameCore (l.foldl step d) d := by
  intro l
  induction l with
  | nil => intro d; exact sameCore_refl d
  | cons m ms ih =>
    intro d
    exact sameCore_trans (ih (step d m)) (hstep d m)

/-- The admin fan-out of Submit leaves every non-notification collection as
it was. -/
theorem submitFold_core (group : Group) (cu : UserRec) (activity : Activity)
    (aid : String) (dbStart : DB) :
    sameCore (group.members.foldl (fun d member_id =>
      if (member_id != cu.id && group.admins.contains member_id) = true then
        create_notification d member_id ("New Submission in " ++ group.name)
          (cu.username ++ " has submitted a photo for the challenge '" ++
            activity.title ++ "'!")
          "submission"
          (some ("/groups/" ++ group.id ++ "/activities/" ++ aid ++ "/submissions"))
      else d) dbStart) dbStart := by
  apply foldl_notifyCore
  intro d m
  by_cases hc : (m != cu.id && group.admins.contains m) = true
  · simp only [hc, if_true]
    exact ⟨rfl, rfl, rfl, rfl, rfl⟩
  · simp only [hc, if_false]
    exact sameCore_refl d

theorem create_submission_success (db : DB) (cu : UserRec) (aid photo : String)
    (cap : Option String) (now : Nat) (nid : String)
    (activity : Activity) (group : Group) (d : Nat)
    (ha : db.activities.find? (fun a => a.id == aid) = some activity)
    (hgr : db.groups.find? (fun g => g.id == activity.group_id) = some group)
    (hm : group.members.contains cu.id = true)
    (hsel : activity.selected_for_date = some d)
    (hdup : db.submissions.find? (fun s =>
      s.activity_id == aid && s.user_id == cu.id) = none) :
    (create_submission db cu aid photo cap now nid).1 =
      .ok (newSubmission cu aid photo cap now nid) ∧
    (create_submission db cu aid photo cap now nid).2.submissions =
      db.submissions ++ [newSubmission cu aid photo cap now nid] ∧
    (create_submission db cu aid photo cap now nid).2.groups = db.groups ∧
    (create_submission db cu aid photo cap now nid).2.users =
      updateFirst (fun u => u.id == cu.id)
        (fun u => { u with completed_challenges := u.completed_challenges + 1 })
        db.users ∧
    (create_submission db cu aid photo cap now nid).2.leaderboard_history =
      db.leaderboard_history ∧
    (create_submission db cu aid photo cap now nid).2.activities =
      (if group.members.length ≤
          (db.submissions.filter (fun s => s.activity_id == aid)).length + 1 then
        updateFirst (fun a => a.id == aid)
          (fun a => { a with is_completed := true }) db.activities
      else db.activities) := by
  have hop : ((some d == none) : Bool) = false := rfl
  have hcount : (List.filter (fun s => s.activity_id == aid) (db.submissions ++ [({ id := nid, activity_id := aid, user_id := cu.id, photo_url := photo, caption := cap, submitted_at := now, votes := [], reactions := [], is_featured := false } : Submission)])).length = (db.submissions.filter (fun s => s.activity_id == aid)).length + 1 := by
    simp [List.filter_append]
  unfold create_submission
  simp only [ha, hgr, hm, hsel, hdup]
  simp only [Bool.not_true, Bool.false_eq_true, if_false, hop]
  refine ⟨rfl, ?_, ?_, ?_, ?_, ?_⟩
  · rw [(submitFold_core group cu activity aid _).2.2.2.1]
    split <;> rfl
  · rw [(submitFold_core group cu activity aid _).2.1]
    split <;> rfl
  · rw [(submitFold_core group cu activity aid _).1]
    split <;> rfl
  · rw [(submitFold_core group cu activity aid _).2.2.2.2]
    split <;> rfl
  · rw [(submitFold_core group cu activity aid _).2.2.1]
    rw [hcount]
    split <;> rfl

end Actify

namespace Actify

/-- A successful Submit-path rejection of a duplicate: all earlier checks
pass, a prior submission by the caller exists, so the duplicate 400 is
returned with the store untouched. -/
theorem submit_duplicate (db : DB) (cu : UserRec) (aid photo : String)
    (cap : Option String) (now : Nat) (nid : String)
    (activity : Activity) (group : Group) (d : Nat) (prior : Submission)
    (ha : db.activities.find? (fun a => a.id == aid) = some activity)
    (hgr : db.groups.find? (fun g => g.id == activity.group_id) = some group)
    (hm : group.members.contains cu.id = true)
    (hsel : activity.selected_for_date = some d)
    (hdup : db.submissions.find? (fun s =>
      s.activity_id == aid && s.user_id == cu.id) = some prior) :
    create_submission db cu aid photo cap now nid =
      (.error (.badRequest "Already submitted for this activity"), db) := by
  have hop : ((some d == none) : Bool) = false := rfl
  unfold create_submission
  simp only [ha, hgr, hm, hsel, hdup, hop, Bool.not_true, Bool.false_eq_true,
    if_false]

/-- Either a Submit call leaves the submission collection unchanged, or all
its precondition checks passed (in particular the duplicate lookup found
nothing) and exactly the new submission was appended. -/
theorem create_submission_submissions_cases (db : DB) (cu : UserRec)
    (aid photo : String) (cap : Option String) (now : Nat) (nid : String) :
    (create_submission db cu aid photo cap now nid).2.submissions =
      db.submissions ∨
    (db.submissions.find? (fun s =>
        s.activity_id == aid && s.user_id == cu.id) = none ∧
      (create_submission db cu aid photo cap now nid).2.submissions =
        db.submissions ++ [newSubmission cu aid photo cap now nid]) := by
  unfold create_submission
  split
  · exact Or.inl rfl
  · split
    · exact Or.inl rfl
    · split
      · exact Or.inl rfl
      · split
        · exact Or.inl rfl
        · split
          · exact Or.inl rfl
          · rename_i x1 activity ha x2 group hgr hmem hselb x3 hdup
            refine Or.inr ⟨hdup, ?_⟩
            dsimp only
            rw [(submitFold_core group cu activity aid _).2.2.2.1]
            split <;> rfl

end Actify

namespace Actify

/-- C3: for every activity A and user U there is at most one submission with
(activity = A, author = U): Submit preserves the uniqueness invariant, and
after a successful Submit by U for A, a second Submit by U for A (with any
photo, caption, time and id) fails with the duplicate error and persists no
new submission (the store is returned unchanged). -/
theorem submission_uniqueness (db : DB) (cu : UserRec) (aid photo : String)
    (cap : Option String) (now : Nat) (nid : String)
    (photo2 : String) (cap2 : Option String) (now2 : Nat) (nid2 : String)
    (activity : Activity) (group : Group) (d : Nat)
    (ha : db.activities.find? (fun a => a.id == aid) = some activity)
    (hgr : db.groups.find? (fun g => g.id == activity.group_id) = some group)
    (hm : group.members.contains cu.id = true)
    (hsel : activity.selected_for_date = some d)
    (hdup : db.submissions.find? (fun s =>
      s.activity_id == aid && s.user_id == cu.id) = none) :
    (∀ (db0 : DB) (cu0 : UserRec) (aid0 photo0 : String) (cap0 : Option String)
        (now0 : Nat) (nid0 : String), atMostOneSubmissionPer db0 →
      atMostOneSubmissionPer
        ((create_submission db0 cu0 aid0 photo0 cap0 now0 nid0).2)) ∧
    create_submission ((create_submission db cu aid photo cap now nid).2) cu aid
        photo2 cap2 now2 nid2 =
      (.error (.badRequest "Already submitted for this activity"),
        (create_submission db cu aid photo cap now nid).2) := by
  constructor
  · intro db0 cu0 aid0 photo0 cap0 now0 nid0 hinv aid1 uid1
    rcases create_submission_submissions_cases db0 cu0 aid0 photo0 cap0 now0 nid0 with
      hsame | ⟨hnone, happ⟩
    · unfold atMostOneSubmissionPer at hinv
      rw [hsame]
      exact hinv aid1 uid1
    · rw [happ, List.filter_append, List.length_append]
      cases hp : (aid0 == aid1 && cu0.id == uid1) with
      | true =>
        obtain ⟨hpa, hpu⟩ := (Bool.and_eq_true (aid0 == aid1) (cu0.id == uid1)).mp hp
        have haid : aid0 = aid1 := beq_iff_eq.mp hpa
        have huid : cu0.id = uid1 := beq_iff_eq.mp hpu
        have hnil : db0.submissions.filter (fun s =>
            s.activity_id == aid1 && s.user_id == uid1) = [] := by
          rw [List.filter_eq_nil_iff]
          intro s hs
          have hnot := List.find?_eq_none.mp hnone s hs
          rw [← haid, ← huid]
          exact hnot
        rw [hnil]
        simp [newSubmission, hpa, hpu]
      | false =>
        have hnil2 : List.filter (fun s =>
            s.activity_id == aid1 && s.user_id == uid1)
            [newSubmission cu0 aid0 photo0 cap0 now0 nid0] = [] := by
          simp only [List.filter, newSubmission]
          simp [hp]
        rw [hnil2]
        simpa using hinv aid1 uid1
  · obtain ⟨hok, hsubs, hgroups, husers, hlb, hacts⟩ :=
      create_submission_success db cu aid photo cap now nid activity group d
        ha hgr hm hsel hdup
    have ha2 : ∃ act2,
        (create_submission db cu aid photo cap now nid).2.activities.find?
          (fun a => a.id == aid) = some act2 ∧
        act2.group_id = activity.group_id ∧
        act2.selected_for_date = some d := by
      rw [hacts]
      split
      · exact ⟨{ activity with is_completed := true },
          find?_refetch (fun a : Activity => a.id == aid)
            (fun a : Activity => { a with is_completed := true })
            (fun a => rfl) ha, rfl, hsel⟩
      · exact ⟨activity, ha, rfl, hsel⟩
    obtain ⟨act2, hfind2, hgid2, hsel2⟩ := ha2
    have hgr2 : (create_submission db cu aid photo cap now nid).2.groups.find?
        (fun g => g.id == act2.group_id) = some group := by
      rw [hgroups, hgid2]
      exact hgr
    have hdup2 : (create_submission db cu aid photo cap now nid).2.submissions.find?
        (fun s => s.activity_id == aid && s.user_id == cu.id) =
        some (newSubmission cu aid photo cap now nid) := by
      rw [hsubs, List.find?_append, hdup]
      simp [newSubmission]
    exact submit_duplicate _ cu aid photo2 cap2 now2 nid2 act2 group d
      (newSubmission cu aid photo cap now nid) hfind2 hgr2 hm hsel2 hdup2

end Actify

namespace Actify

/-- Witness for C3: A submits to the selected activity x, then submits again;
the second call is rejected as a duplicate and returns the post-first-submit
store unchanged. -/
theorem submission_uniqueness_witness :
    create_submission ((create_submission selectedDB userA "x" "p" none 5 "s1").2)
        userA "x" "p2" none 6 "s2" =
      (.error (.badRequest "Already submitted for this activity"),
        (create_submission selectedDB userA "x" "p" none 5 "s1").2) :=
  (submission_uniqueness selectedDB userA "x" "p" none 5 "s1" "p2" none 6 "s2"
    selectedX groupGAB 0 (by decide) (by decide) (by decide) (by decide)
    (by decide)).2

end Actify

namespace Actify

/-- Counterexample for C6 as stated: group g currently has 1 member, but
activity x already carries 2 submissions from removed members; A's successful
submit recomputes the count as 3, which is not equal to the member count 1,
yet the activity is marked completed, because the source compares with
greater-or-equal, not equality. -/
theorem submit_completion_equality_cex :
    (((create_submission staleDB userA "x" "p" none 5 "sa").2.activities.find?
        (fun a => a.id == "x")).map (fun a => a.is_completed) = some true) ∧
    ((create_submission staleDB userA "x" "p" none 5 "sa").2.submissions.filter
        (fun s => s.activity_id == "x")).length = 3 ∧
    (((create_submission staleDB userA "x" "p" none 5 "sa").2.groups.find?
        (fun g => g.id == "g")).map (fun g => g.members.length) = some 1) ∧
    (3 : Nat) ≠ 1 := by decide

/-- C6 (amended): after a successful Submit, the stored activity's completion
flag equals its old value or-ed with whether the freshly recomputed
submission count (old count plus the new submission) has reached the group's
member count as read at write time; so the flag is set exactly on
greater-or-equal, keeps its prior value otherwise, and never reverts. -/
theorem submit_completion_threshold (db : DB) (cu : UserRec) (aid photo : String)
    (cap : Option String) (now : Nat) (nid : String)
    (activity : Activity) (group : Group) (d : Nat)
    (ha : db.activities.find? (fun a => a.id == aid) = some activity)
    (hgr : db.groups.find? (fun g => g.id == activity.group_id) = some group)
    (hm : group.members.contains cu.id = true)
    (hsel : activity.selected_for_date = some d)
    (hdup : db.submissions.find? (fun s =>
      s.activity_id == aid && s.user_id == cu.id) = none) :
    ((create_submission db cu aid photo cap now nid).2.activities.find?
      (fun a => a.id == aid)).map (fun a => a.is_completed) =
    some (activity.is_completed ||
      decide (group.members.length ≤
        (db.submissions.filter (fun s => s.activity_id == aid)).length + 1)) := by
  obtain ⟨hok, hsubs, hgroups, husers, hlb, hacts⟩ :=
    create_submission_success db cu aid photo cap now nid activity group d
      ha hgr hm hsel hdup
  rw [hacts]
  split
  · rename_i hc
    rw [find?_refetch (fun a : Activity => a.id == aid)
      (fun a : Activity => { a with is_completed := true }) (fun a => rfl) ha]
    simp [decide_eq_true hc]
  · rename_i hc
    rw [ha]
    simp [decide_eq_false hc]

/-- Witness for the amended C6: in the stale store the flag is set because
3 submissions meet or exceed the single remaining member. -/
theorem submit_completion_threshold_witness :
    ((create_submission staleDB userA "x" "p" none 5 "sa").2.activities.find?
      (fun a => a.id == "x")).map (fun a => a.is_completed) =
    some (selectedX.is_completed ||
      decide (staleGroup.members.length ≤
        (staleDB.submissions.filter (fun s => s.activity_id == "x")).length + 1)) :=
  submit_completion_threshold staleDB userA "x" "p" none 5 "sa" selectedX
    staleGroup 0 (by decide) (by decide) (by decide) (by decide) (by decide)

end Actify

namespace Actify

/-- Characterisation of a vote toggle in the add direction: the vote is
appended, the author's lifetime points rise by one exactly when the voter is
not the author and the author's user document resolves, and nothing else in
the store changes (besides the fan-out notification). -/
theorem vote_add (db : DB) (cu : UserRec) (sid : String)
    (submission : Submission) (activity : Activity) (group : Group)
    (hs : db.submissions.find? (fun s => s.id == sid) = some submission)
    (ha : db.activities.find? (fun a => a.id == submission.activity_id) = some activity)
    (hgr : db.groups.find? (fun g => g.id == activity.group_id) = some group)
    (hm : group.members.contains cu.id = true)
    (hv : submission.votes.contains cu.id = false) :
    (vote_submission db cu sid).1 =
      .ok { submission with votes := submission.votes ++ [cu.id] } ∧
    (vote_submission db cu sid).2.submissions =
      updateFirst (fun s => s.id == sid)
        (fun s => { s with votes := s.votes ++ [cu.id] }) db.submissions ∧
    (vote_submission db cu sid).2.activities = db.activities ∧
    (vote_submission db cu sid).2.groups = db.groups ∧
    (vote_submission db cu sid).2.leaderboard_history = db.leaderboard_history ∧
    (vote_submission db cu sid).2.users =
      (if (submission.user_id != cu.id) = true then
        (match db.users.find? (fun u => u.id == submission.user_id) with
         | some _ => updateFirst (fun u => u.id == submission.user_id)
             (fun u => { u with total_points := u.total_points + 1 }) db.users
         | none => db.users)
       else db.users) := by
  cases hb : (submission.user_id != cu.id) with
  | true =>
    cases hfu : db.users.find? (fun u => u.id == submission.user_id) with
    | some owner =>
      unfold vote_submission
      simp only [hs, ha, hgr, hm, hv, hb, hfu, Bool.not_true, Bool.not_false,
        Bool.false_eq_true, Bool.true_and, if_false, if_true]
      rw [find?_refetch (fun s : Submission => s.id == sid)
        (fun s : Submission => { s with votes := s.votes ++ [cu.id] })
        (fun a => rfl) hs]
      exact ⟨rfl, rfl, rfl, rfl, rfl, rfl⟩
    | none =>
      unfold vote_submission
      simp only [hs, ha, hgr, hm, hv, hb, hfu, Bool.not_true, Bool.not_false,
        Bool.false_eq_true, Bool.true_and, if_false, if_true]
      rw [find?_refetch (fun s : Submission => s.id == sid)
        (fun s : Submission => { s with votes := s.votes ++ [cu.id] })
        (fun a => rfl) hs]
      exact ⟨rfl, rfl, rfl, rfl, rfl, rfl⟩
  | false =>
    unfold vote_submission
    simp only [hs, ha, hgr, hm, hv, hb, Bool.not_true, Bool.not_false,
      Bool.false_eq_true, Bool.true_and, if_false, if_true]
    rw [find?_refetch (fun s : Submission => s.id == sid)
      (fun s : Submission => { s with votes := s.votes ++ [cu.id] })
      (fun a => rfl) hs]
    exact ⟨rfl, rfl, rfl, rfl, rfl, rfl⟩

/-- Characterisation of a vote toggle in the remove direction: every vote by
the caller is pulled, and user stats are untouched (no point refund). -/
theorem vote_remove (db : DB) (cu : UserRec) (sid : String)
    (submission : Submission) (activity : Activity) (group : Group)
    (hs : db.submissions.find? (fun s => s.id == sid) = some submission)
    (ha : db.activities.find? (fun a => a.id == submission.activity_id) = some activity)
    (hgr : db.groups.find? (fun g => g.id == activity.group_id) = some group)
    (hm : group.members.contains cu.id = true)
    (hv : submission.votes.contains cu.id = true) :
    (vote_submission db cu sid).1 =
      .ok { submission with votes := submission.votes.filter (fun v => v != cu.id) } ∧
    (vote_submission db cu sid).2.submissions =
      updateFirst (fun s => s.id == sid)
        (fun s => { s with votes := s.votes.filter (fun v => v != cu.id) })
        db.submissions ∧
    (vote_submission db cu sid).2.activities = db.activities ∧
    (vote_submission db cu sid).2.groups = db.groups ∧
    (vote_submission db cu sid).2.leaderboard_history = db.leaderboard_history ∧
    (vote_submission db cu sid).2.users = db.users := by
  unfold vote_submission
  simp only [hs, ha, hgr, hm, hv, Bool.not_true, Bool.false_eq_true, if_false,
    if_true]
  rw [find?_refetch (fun s : Submission => s.id == sid)
    (fun s : Submission => { s with votes := s.votes.filter (fun v => v != cu.id) })
    (fun a => rfl) hs]
  exact ⟨rfl, rfl, rfl, rfl, rfl, rfl⟩

end Actify

namespace Actify

/-- C9: removing a vote never refunds the author's lifetime points.  The +1
is awarded only on the add branch when the voter is not the author, so a
non-author voter toggling add-then-remove restores the vote list exactly but
leaves the author's total_points permanently one higher. -/
theorem vote_cycle_keeps_point (db : DB) (cu : UserRec) (sid : String)
    (submission : Submission) (activity : Activity) (group : Group)
    (owner : UserRec)
    (hs : db.submissions.find? (fun s => s.id == sid) = some submission)
    (ha : db.activities.find? (fun a => a.id == submission.activity_id) = some activity)
    (hgr : db.groups.find? (fun g => g.id == activity.group_id) = some group)
    (hm : group.members.contains cu.id = true)
    (hne : submission.user_id ≠ cu.id)
    (hv : submission.votes.contains cu.id = false)
    (howner : db.users.find? (fun u => u.id == submission.user_id) = some owner) :
    (((vote_submission ((vote_submission db cu sid).2) cu sid).2.submissions.find?
        (fun s => s.id == sid)).map (fun s => s.votes) = some submission.votes) ∧
    (((vote_submission ((vote_submission db cu sid).2) cu sid).2.users.find?
        (fun u => u.id == submission.user_id)).map (fun u => u.total_points) =
      some (owner.total_points + 1)) := by
  obtain ⟨hok1, hsubs1, hacts1, hgroups1, hlb1, husers1⟩ :=
    vote_add db cu sid submission activity group hs ha hgr hm hv
  have hbne : (submission.user_id != cu.id) = true := bne_iff_ne.mpr hne
  simp only [hbne, eq_self_iff_true, if_true, howner] at husers1
  have hs1 : (vote_submission db cu sid).2.submissions.find?
      (fun s => s.id == sid) =
      some { submission with votes := submission.votes ++ [cu.id] } := by
    rw [hsubs1]
    exact find?_refetch (fun s : Submission => s.id == sid)
      (fun s : Submission => { s with votes := s.votes ++ [cu.id] })
      (fun a => rfl) hs
  have ha1 : (vote_submission db cu sid).2.activities.find?
      (fun a => a.id == submission.activity_id) = some activity := by
    rw [hacts1]
    exact ha
  have hgr1 : (vote_submission db cu sid).2.groups.find?
      (fun g => g.id == activity.group_id) = some group := by
    rw [hgroups1]
    exact hgr
  have hv1 : ({ submission with votes := submission.votes ++ [cu.id] }
      : Submission).votes.contains cu.id = true := by
    simp
  obtain ⟨hok2, hsubs2, hacts2, hgroups2, hlb2, husers2⟩ :=
    vote_remove ((vote_submission db cu sid).2) cu sid
      { submission with votes := submission.votes ++ [cu.id] } activity group
      hs1 ha1 hgr1 hm hv1
  have hnm : cu.id ∉ submission.votes := by
    simp at hv
    exact hv
  have hclean : (submission.votes ++ [cu.id]).filter (fun v => v != cu.id) =
      submission.votes := by
    rw [List.filter_append]
    have h1 : submission.votes.filter (fun v => v != cu.id) =
        submission.votes := by
      rw [List.filter_eq_self]
      intro v hvmem
      exact bne_iff_ne.mpr (fun heq => hnm (heq ▸ hvmem))
    have h2 : ([cu.id] : List String).filter (fun v => v != cu.id) = [] := by
      simp
    rw [h1, h2, List.append_nil]
  constructor
  · rw [hsubs2]
    rw [find?_refetch (fun s : Submission => s.id == sid)
      (fun s : Submission => { s with votes := s.votes.filter (fun v => v != cu.id) })
      (fun a => rfl) hs1]
    exact congrArg some hclean
  · rw [husers2, husers1]
    rw [find?_refetch (fun u : UserRec => u.id == submission.user_id)
      (fun u : UserRec => { u with total_points := u.total_points + 1 })
      (fun a => rfl) howner]
    rfl

end Actify

namespace Actify

/-- Witness for C9: A toggles a vote on B's submission twice; the vote list
returns to empty but B keeps the awarded point. -/
theorem vote_cycle_keeps_point_witness :
    (((vote_submission ((vote_submission voteDB userA "s1").2) userA "s1").2.submissions.find?
        (fun s => s.id == "s1")).map (fun s => s.votes) = some subX1.votes) ∧
    (((vote_submission ((vote_submission voteDB userA "s1").2) userA "s1").2.users.find?
        (fun u => u.id == subX1.user_id)).map (fun u => u.total_points) =
      some (userB.total_points + 1)) :=
  vote_cycle_keeps_point voteDB userA "s1" subX1 selectedX groupGAB userB
    (by decide) (by decide) (by decide) (by decide) (by decide) (by decide)
    (by decide)

theorem sameUserSet_refl (o : Option (List String)) : sameUserSet o o := by
  cases o with
  | none => trivial
  | some l => exact fun u => Iff.rfl

/-! Association-list facts about the reaction mapping. -/

theorem lookupReaction_none_all {rs : List (String × List String)} {emoji : String}
    (h : lookupReaction rs emoji = none) : ∀ p ∈ rs, (p.1 == emoji) = false := by
  unfold lookupReaction at h
  intro p hp
  have := List.find?_eq_none.mp (Option.map_eq_none.mp h) p hp
  simpa using this

theorem assoc_lookup_self (P Q : List (String × List String)) (emoji : String)
    (v : List String) (hP : ∀ y ∈ P, (y.1 == emoji) = false) :
    lookupReaction (P ++ (emoji, v) :: Q) emoji = some v := by
  unfold lookupReaction
  rw [find?_append_left_none hP]
  simp [List.find?_cons]

theorem assoc_lookup_skip (P Q : List (String × List String)) (emoji e : String)
    (x : List String) (hne : (emoji == e) = false) :
    lookupReaction (P ++ (emoji, x) :: Q) e = lookupReaction (P ++ Q) e := by
  unfold lookupReaction
  rw [List.find?_append, List.find?_append]
  simp [List.find?_cons, hne]

theorem assoc_set_of_decomp (P Q : List (String × List String)) (emoji : String)
    (l v : List String) (hP : ∀ y ∈ P, (y.1 == emoji) = false) :
    setReaction (P ++ (emoji, l) :: Q) emoji v = P ++ (emoji, v) :: Q := by
  unfold setReaction
  rw [updateFirst_append_left _ hP]
  simp [updateFirst_cons]

theorem assoc_remove_of_decomp (P Q : List (String × List String)) (emoji : String)
    (l : List String) (hP : ∀ y ∈ P, (y.1 == emoji) = false) :
    removeReaction (P ++ (emoji, l) :: Q) emoji = P ++ Q := by
  unfold removeReaction
  rw [eraseP_append_left_none hP]
  simp [List.eraseP_cons]

/-- Toggling when the emoji key is absent: the key is created holding exactly
the toggling user. -/
theorem toggleReaction_absent (rs : List (String × List String))
    (emoji uid : String) (habs : lookupReaction rs emoji = none) :
    toggleReaction rs emoji uid = rs ++ [(emoji, [uid])] := by
  unfold toggleReaction
  rw [habs]
  have hall := lookupReaction_none_all habs
  have hlook : lookupReaction (rs ++ [(emoji, [])]) emoji = some [] := by
    simpa using assoc_lookup_self rs [] emoji [] hall
  simp only [Option.isNone_none, if_true, hlook, Option.getD_some,
    List.contains, List.elem_nil, Bool.false_eq_true, if_false]
  simpa using assoc_set_of_decomp rs [] emoji [] [uid] hall

/-- Toggling when the emoji key is present with user list `l`: remove (and
prune an emptied key) or append, leaving the prefix and suffix untouched. -/
theorem toggleReaction_present (P Q : List (String × List String))
    (emoji uid : String) (l : List String)
    (hP : ∀ y ∈ P, (y.1 == emoji) = false) :
    toggleReaction (P ++ (emoji, l) :: Q) emoji uid =
      (if l.contains uid then
        (if (l.erase uid).isEmpty then P ++ Q
         else P ++ (emoji, l.erase uid) :: Q)
      else P ++ (emoji, l ++ [uid]) :: Q) := by
  unfold toggleReaction
  have hlook : lookupReaction (P ++ (emoji, l) :: Q) emoji = some l :=
    assoc_lookup_self P Q emoji l hP
  rw [hlook]
  simp only [Option.isNone_some, Bool.false_eq_true, if_false, hlook,
    Option.getD_some]
  by_cases hc : l.contains uid = true
  · simp only [hc, if_true]
    by_cases hemp : (l.erase uid).isEmpty = true
    · simp only [hemp, if_true]
      exact assoc_remove_of_decomp P Q emoji l hP
    · simp only [hemp, Bool.false_eq_true, if_false]
      exact assoc_set_of_decomp P Q emoji l (l.erase uid) hP
  · simp only [hc, Bool.false_eq_true, if_false]
    exact assoc_set_of_decomp P Q emoji l (l ++ [uid]) hP

end Actify

namespace Actify

theorem lookupReaction_some_decomp {rs : List (String × List String)}
    {emoji : String} {l : List String}
    (h : lookupReaction rs emoji = some l) :
    ∃ P Q, rs = P ++ (emoji, l) :: Q ∧ ∀ y ∈ P, (y.1 == emoji) = false := by
  unfold lookupReaction at h
  cases hf : rs.find? (fun r => r.1 == emoji) with
  | none => rw [hf] at h; exact Option.noConfusion h
  | some pr =>
    rw [hf] at h
    simp at h
    have hpred : (pr.1 == emoji) = true := by
      have hps := List.find?_some hf
      simpa using hps
    have hkey : pr.1 = emoji := beq_iff_eq.mp hpred
    have hpr : pr = (emoji, l) := by
      cases pr
      simp_all
    obtain ⟨P, Q, hrs, hall⟩ := find?_decomp hf
    exact ⟨P, Q, by rw [hrs, hpr], hall⟩

theorem keys_nodup_suffix {P Q : List (String × List String)} {emoji : String}
    {l : List String}
    (h : ((P ++ (emoji, l) :: Q).map Prod.fst).Nodup) :
    ∀ y ∈ Q, (y.1 == emoji) = false := by
  intro y hy
  rw [beq_eq_false_iff_ne]
  intro hEq
  rw [List.map_append] at h
  have hdisj := (List.nodup_append.mp h).2.1
  rw [List.map_cons] at hdisj
  have h3 := (List.nodup_cons.mp hdisj).1
  exact h3 (List.mem_map.mpr ⟨y, hy, hEq⟩)

/-- The emptied-and-pruned pair came from a one-user list. -/
theorem erase_eq_nil_of_mem {l : List String} {uid : String}
    (hc : l.contains uid = true) (hemp : l.erase uid = []) : l = [uid] := by
  cases l with
  | nil => simp at hc
  | cons a as =>
    rw [List.erase_cons] at hemp
    by_cases hab : a = uid
    · subst hab
      simp at hemp
      rw [hemp]
    · rw [if_neg (by simpa using hab)] at hemp
      simp at hemp

/-- Toggling a reaction never stores an emoji key with an empty user set. -/
theorem toggleReaction_noEmpty (rs : List (String × List String))
    (emoji uid : String) (hne : ∀ p ∈ rs, p.2 ≠ []) :
    ∀ p ∈ toggleReaction rs emoji uid, p.2 ≠ [] := by
  cases hlook : lookupReaction rs emoji with
  | none =>
    rw [toggleReaction_absent rs emoji uid hlook]
    intro p hp
    rcases List.mem_append.mp hp with hp | hp
    · exact hne p hp
    · have : p = (emoji, [uid]) := by simpa using hp
      rw [this]
      simp
  | some l =>
    obtain ⟨P, Q, hrs, hP⟩ := lookupReaction_some_decomp hlook
    have hmemPQ : ∀ p, p ∈ P ∨ p ∈ Q → p.2 ≠ [] := by
      intro p hp
      apply hne
      rw [hrs]
      rcases hp with h | h
      · exact List.mem_append.mpr (Or.inl h)
      · exact List.mem_append.mpr (Or.inr (List.mem_cons_of_mem _ h))
    rw [hrs, toggleReaction_present P Q emoji uid l hP]
    split
    · split
      · intro p hp
        exact hmemPQ p (List.mem_append.mp hp)
      · rename_i hemp
        intro p hp
        rcases List.mem_append.mp hp with h | h
        · exact hmemPQ p (Or.inl h)
        · rcases List.mem_cons.mp h with rfl | h
          · simpa [List.isEmpty_iff] using hemp
          · exact hmemPQ p (Or.inr h)
    · intro p hp
      rcases List.mem_append.mp hp with h | h
      · exact hmemPQ p (Or.inl h)
      · rcases List.mem_cons.mp h with rfl | h
        · simp
        · exact hmemPQ p (Or.inr h)

end Actify

namespace Actify

/-- Toggling the same emoji by the same user twice returns the reaction
mapping to its original key set and per-key user sets. -/
theorem toggleReaction_involutive (rs : List (String × List String))
    (emoji uid : String)
    (hkeys : (rs.map Prod.fst).Nodup)
    (hne : ∀ p ∈ rs, p.2 ≠ [])
    (hu : ∀ p ∈ rs, p.2.Nodup) :
    ∀ e, sameUserSet
      (lookupReaction (toggleReaction (toggleReaction rs emoji uid) emoji uid) e)
      (lookupReaction rs e) := by
  intro e
  cases hlook : lookupReaction rs emoji with
  | none =>
    have hall := lookupReaction_none_all hlook
    rw [toggleReaction_absent rs emoji uid hlook]
    rw [show rs ++ [(emoji, [uid])] = rs ++ (emoji, [uid]) :: [] from rfl]
    rw [toggleReaction_present rs [] emoji uid [uid] hall]
    have hcu : ([uid] : List String).contains uid = true := by simp
    have her : ([uid] : List String).erase uid = [] := by simp
    simp only [hcu, if_true, her, List.isEmpty_nil]
    rw [List.append_nil]
    exact sameUserSet_refl _
  | some l =>
    obtain ⟨P, Q, hrs, hP⟩ := lookupReaction_some_decomp hlook
    have hQ : ∀ y ∈ Q, (y.1 == emoji) = false := keys_nodup_suffix (hrs ▸ hkeys)
    have hlmem : (emoji, l) ∈ rs := by
      rw [hrs]
      exact List.mem_append.mpr (Or.inr (List.mem_cons_self _ _))
    have hlne : l ≠ [] := hne (emoji, l) hlmem
    have hlnd : l.Nodup := hu (emoji, l) hlmem
    subst hrs
    rw [toggleReaction_present P Q emoji uid l hP]
    by_cases hc : l.contains uid = true
    · have hmem : uid ∈ l := by simpa using hc
      by_cases hemp : (l.erase uid).isEmpty = true
      · have hl : l = [uid] :=
          erase_eq_nil_of_mem hc (by simpa [List.isEmpty_iff] using hemp)
        simp only [hc, if_true, hemp]
        have habs2 : lookupReaction (P ++ Q) emoji = none := by
          unfold lookupReaction
          rw [List.find?_append]
          rw [List.find?_eq_none.mpr (by simpa using hP),
            List.find?_eq_none.mpr (by simpa using hQ)]
          rfl
        rw [toggleReaction_absent (P ++ Q) emoji uid habs2]
        by_cases he : emoji = e
        · subst he
          have hPQ : ∀ y ∈ P ++ Q, (y.1 == emoji) = false := by
            intro y hy
            rcases List.mem_append.mp hy with h | h
            · exact hP y h
            · exact hQ y h
          have h1 : lookupReaction ((P ++ Q) ++ [(emoji, [uid])]) emoji =
              some [uid] := by
            simpa using assoc_lookup_self (P ++ Q) [] emoji [uid] hPQ
          rw [h1, assoc_lookup_self P Q emoji l hP, hl]
          exact sameUserSet_refl _
        · have hbe : (emoji == e) = false := beq_eq_false_iff_ne.mpr he
          rw [assoc_lookup_skip P Q emoji e l hbe]
          rw [show (P ++ Q) ++ [(emoji, [uid])] =
            (P ++ Q) ++ (emoji, [uid]) :: [] from rfl]
          rw [assoc_lookup_skip (P ++ Q) [] emoji e [uid] hbe]
          rw [List.append_nil]
          exact sameUserSet_refl _
      · simp only [hc, if_true, hemp, Bool.false_eq_true, if_false]
        rw [toggleReaction_present P Q emoji uid (l.erase uid) hP]
        have hnc2 : (l.erase uid).contains uid = false := by
          have : uid ∉ l.erase uid := by
            rw [hlnd.mem_erase_iff]
            simp
          simpa using this
        simp only [hnc2, Bool.false_eq_true, if_false]
        by_cases he : emoji = e
        · subst he
          rw [assoc_lookup_self P Q emoji (l.erase uid ++ [uid]) hP,
            assoc_lookup_self P Q emoji l hP]
          intro u
          rw [List.mem_append, hlnd.mem_erase_iff, List.mem_singleton]
          constructor
          · rintro (⟨hne2, hm2⟩ | rfl)
            · exact hm2
            · exact hmem
          · intro hm2
            by_cases hq : u = uid
            · exact Or.inr hq
            · exact Or.inl ⟨hq, hm2⟩
        · have hbe : (emoji == e) = false := beq_eq_false_iff_ne.mpr he
          rw [assoc_lookup_skip P Q emoji e (l.erase uid ++ [uid]) hbe,
            assoc_lookup_skip P Q emoji e l hbe]
          exact sameUserSet_refl _
    · have hnmem : uid ∉ l := by simpa using hc
      simp only [hc, Bool.false_eq_true, if_false]
      rw [toggleReaction_present P Q emoji uid (l ++ [uid]) hP]
      have hc2 : (l ++ [uid]).contains uid = true := by simp
      have herase : (l ++ [uid]).erase uid = l := by
        rw [List.erase_append_right _ hnmem]
        simp
      have hempf : l.isEmpty = false := by
        cases l with
        | nil => exact absurd rfl hlne
        | cons a as => rfl
      simp only [hc2, if_true, herase, hempf, Bool.false_eq_true, if_false]
      exact sameUserSet_refl _

end Actify

namespace Actify

/-- Characterisation of a successful reaction toggle: the stored reaction
mapping is rewritten by the in-place dict surgery and nothing else changes. -/
theorem react_success (db : DB) (cu : UserRec) (sid emoji : String)
    (submission : Submission) (activity : Activity) (group : Group)
    (hs : db.submissions.find? (fun s => s.id == sid) = some submission)
    (ha : db.activities.find? (fun a => a.id == submission.activity_id) = some activity)
    (hgr : db.groups.find? (fun g => g.id == activity.group_id) = some group)
    (hm : group.members.contains cu.id = true) :
    (react_to_submission db cu sid emoji).1 =
      .ok { submission with
        reactions := toggleReaction submission.reactions emoji cu.id } ∧
    (react_to_submission db cu sid emoji).2.submissions =
      updateFirst (fun s => s.id == sid)
        (fun s => { s with
          reactions := toggleReaction submission.reactions emoji cu.id })
        db.submissions ∧
    (react_to_submission db cu sid emoji).2.activities = db.activities ∧
    (react_to_submission db cu sid emoji).2.groups = db.groups ∧
    (react_to_submission db cu sid emoji).2.users = db.users ∧
    (react_to_submission db cu sid emoji).2.leaderboard_history =
      db.leaderboard_history := by
  unfold react_to_submission
  simp only [hs, ha, hgr, hm, Bool.not_true, Bool.false_eq_true, if_false]
  rw [find?_refetch (fun s : Submission => s.id == sid)
    (fun s : Submission => { s with
      reactions := toggleReaction submission.reactions emoji cu.id })
    (fun a => rfl) hs]
  exact ⟨rfl, rfl, rfl, rfl, rfl, rfl⟩

/-- C4: for a member of the submission's group, toggling a vote twice
restores the vote set, toggling the same reaction emoji twice restores the
reaction mapping (same keys, same user sets), and after any single reaction
toggle no stored emoji key maps to an empty user set. -/
theorem toggle_round_trips (db : DB) (cu : UserRec) (sid emoji : String)
    (submission : Submission) (activity : Activity) (group : Group)
    (hs : db.submissions.find? (fun s => s.id == sid) = some submission)
    (ha : db.activities.find? (fun a => a.id == submission.activity_id) = some activity)
    (hgr : db.groups.find? (fun g => g.id == activity.group_id) = some group)
    (hm : group.members.contains cu.id = true)
    (hkeys : (submission.reactions.map Prod.fst).Nodup)
    (hnemp : ∀ p ∈ submission.reactions, p.2 ≠ [])
    (hund : ∀ p ∈ submission.reactions, p.2.Nodup) :
    (∃ V, ((vote_submission ((vote_submission db cu sid).2) cu sid).2.submissions.find?
        (fun s => s.id == sid)).map (fun s => s.votes) = some V ∧
      ∀ u, u ∈ V ↔ u ∈ submission.votes) ∧
    (∃ R, ((react_to_submission ((react_to_submission db cu sid emoji).2) cu
          sid emoji).2.submissions.find?
        (fun s => s.id == sid)).map (fun s => s.reactions) = some R ∧
      ∀ e, sameUserSet (lookupReaction R e)
        (lookupReaction submission.reactions e)) ∧
    (∃ R1, ((react_to_submission db cu sid emoji).2.submissions.find?
        (fun s => s.id == sid)).map (fun s => s.reactions) = some R1 ∧
      ∀ p ∈ R1, p.2 ≠ []) := by
  refine ⟨?_, ?_, ?_⟩
  · cases hv : submission.votes.contains cu.id with
    | false =>
      obtain ⟨hok1, hsubs1, hacts1, hgroups1, hlb1, husers1⟩ :=
        vote_add db cu sid submission activity group hs ha hgr hm hv
      have hs1 : (vote_submission db cu sid).2.submissions.find?
          (fun s => s.id == sid) =
          some { submission with votes := submission.votes ++ [cu.id] } := by
        rw [hsubs1]
        exact find?_refetch (fun s : Submission => s.id == sid)
          (fun s : Submission => { s with votes := s.votes ++ [cu.id] })
          (fun a => rfl) hs
      have ha1 : (vote_submission db cu sid).2.activities.find?
          (fun a => a.id == submission.activity_id) = some activity := by
        rw [hacts1]; exact ha
      have hgr1 : (vote_submission db cu sid).2.groups.find?
          (fun g => g.id == activity.group_id) = some group := by
        rw [hgroups1]; exact hgr
      have hv1 : ({ submission with votes := submission.votes ++ [cu.id] }
          : Submission).votes.contains cu.id = true := by simp
      obtain ⟨hok2, hsubs2, hacts2, hgroups2, hlb2, husers2⟩ :=
        vote_remove ((vote_submission db cu sid).2) cu sid
          { submission with votes := submission.votes ++ [cu.id] }
          activity group hs1 ha1 hgr1 hm hv1
      have hnm : cu.id ∉ submission.votes := by simpa using hv
      refine ⟨submission.votes, ?_, fun u => Iff.rfl⟩
      rw [hsubs2]
      rw [find?_refetch (fun s : Submission => s.id == sid)
        (fun s : Submission =>
          { s with votes := s.votes.filter (fun v => v != cu.id) })
        (fun a => rfl) hs1]
      refine congrArg some ?_
      show (submission.votes ++ [cu.id]).filter (fun v => v != cu.id) =
        submission.votes
      rw [List.filter_append]
      have h1 : submission.votes.filter (fun v => v != cu.id) =
          submission.votes := by
        rw [List.filter_eq_self]
        intro v hvmem
        exact bne_iff_ne.mpr (fun heq => hnm (heq ▸ hvmem))
      have h2 : ([cu.id] : List String).filter (fun v => v != cu.id) = [] := by
        simp
      rw [h1, h2, List.append_nil]
    | true =>
      obtain ⟨hok1, hsubs1, hacts1, hgroups1, hlb1, husers1⟩ :=
        vote_remove db cu sid submission activity group hs ha hgr hm hv
      have hs1 : (vote_submission db cu sid).2.submissions.find?
          (fun s => s.id == sid) =
          some { submission with
            votes := submission.votes.filter (fun v => v != cu.id) } := by
        rw [hsubs1]
        exact find?_refetch (fun s : Submission => s.id == sid)
          (fun s : Submission =>
            { s with votes := s.votes.filter (fun v => v != cu.id) })
          (fun a => rfl) hs
      have ha1 : (vote_submission db cu sid).2.activities.find?
          (fun a => a.id == submission.activity_id) = some activity := by
        rw [hacts1]; exact ha
      have hgr1 : (vote_submission db cu sid).2.groups.find?
          (fun g => g.id == activity.group_id) = some group := by
        rw [hgroups1]; exact hgr
      have hv1 : ({ submission with
          votes := submission.votes.filter (fun v => v != cu.id) }
          : Submission).votes.contains cu.id = false := by
        have : cu.id ∉ submission.votes.filter (fun v => v != cu.id) := by
          intro hmem
          have hcontra := (List.mem_filter.mp hmem).2
          simp at hcontra
        simp [this]
      obtain ⟨hok2, hsubs2, hacts2, hgroups2, hlb2, husers2⟩ :=
        vote_add ((vote_submission db cu sid).2) cu sid
          { submission with
            votes := submission.votes.filter (fun v => v != cu.id) }
          activity group hs1 ha1 hgr1 hm hv1
      have hmem : cu.id ∈ submission.votes := by simpa using hv
      refine ⟨submission.votes.filter (fun v => v != cu.id) ++ [cu.id], ?_, ?_⟩
      · rw [hsubs2]
        rw [find?_refetch (fun s : Submission => s.id == sid)
          (fun s : Submission => { s with votes := s.votes ++ [cu.id] })
          (fun a => rfl) hs1]
        rfl
      · intro u
        rw [List.mem_append, List.mem_filter, List.mem_singleton]
        constructor
        · rintro (⟨hm2, _⟩ | rfl)
          · exact hm2
          · exact hmem
        · intro hm2
          by_cases hq : u = cu.id
          · exact Or.inr hq
          · exact Or.inl ⟨hm2, bne_iff_ne.mpr hq⟩
  · obtain ⟨hok1, hsubs1, hacts1, hgroups1, husers1, hlb1⟩ :=
      react_success db cu sid emoji submission activity group hs ha hgr hm
    have hs1 : (react_to_submission db cu sid emoji).2.submissions.find?
        (fun s => s.id == sid) =
        some { submission with
          reactions := toggleReaction submission.reactions emoji cu.id } := by
      rw [hsubs1]
      exact find?_refetch (fun s : Submission => s.id == sid)
        (fun s : Submission => { s with
          reactions := toggleReaction submission.reactions emoji cu.id })
        (fun a => rfl) hs
    have ha1 : (react_to_submission db cu sid emoji).2.activities.find?
        (fun a => a.id == submission.activity_id) = some activity := by
      rw [hacts1]; exact ha
    have hgr1 : (react_to_submission db cu sid emoji).2.groups.find?
        (fun g => g.id == activity.group_id) = some group := by
      rw [hgroups1]; exact hgr
    obtain ⟨hok2, hsubs2, hacts2, hgroups2, husers2, hlb2⟩ :=
      react_success ((react_to_submission db cu sid emoji).2) cu sid emoji
        { submission with
          reactions := toggleReaction submission.reactions emoji cu.id }
        activity group hs1 ha1 hgr1 hm
    refine ⟨toggleReaction (toggleReaction submission.reactions emoji cu.id)
      emoji cu.id, ?_, ?_⟩
    · rw [hsubs2]
      rw [find?_refetch (fun s : Submission => s.id == sid)
        (fun s : Submission => { s with
          reactions := toggleReaction
            (toggleReaction submission.reactions emoji cu.id) emoji cu.id })
        (fun a => rfl) hs1]
      rfl
    · exact toggleReaction_involutive submission.reactions emoji cu.id
        hkeys hnemp hund
  · obtain ⟨hok1, hsubs1, hacts1, hgroups1, husers1, hlb1⟩ :=
      react_success db cu sid emoji submission activity group hs ha hgr hm
    refine ⟨toggleReaction submission.reactions emoji cu.id, ?_, ?_⟩
    · rw [hsubs1]
      rw [find?_refetch (fun s : Submission => s.id == sid)
        (fun s : Submission => { s with
          reactions := toggleReaction submission.reactions emoji cu.id })
        (fun a => rfl) hs]
      rfl
    · exact toggleReaction_noEmpty submission.reactions emoji cu.id hnemp

end Actify

namespace Actify

/-- Witness for C4: member A double-toggles a vote and a reaction on B's
submission s1; the stored vote set and reaction mapping return to their
original (empty) state, and a single toggle leaves no empty emoji key. -/
theorem toggle_round_trips_witness :
    (∃ V, ((vote_submission ((vote_submission voteDB userA "s1").2) userA
          "s1").2.submissions.find?
        (fun s => s.id == "s1")).map (fun s => s.votes) = some V ∧
      ∀ u, u ∈ V ↔ u ∈ subX1.votes) ∧
    (∃ R, ((react_to_submission ((react_to_submission voteDB userA "s1"
          "fire").2) userA "s1" "fire").2.submissions.find?
        (fun s => s.id == "s1")).map (fun s => s.reactions) = some R ∧
      ∀ e, sameUserSet (lookupReaction R e)
        (lookupReaction subX1.reactions e)) ∧
    (∃ R1, ((react_to_submission voteDB userA "s1" "fire").2.submissions.find?
        (fun s => s.id == "s1")).map (fun s => s.reactions) = some R1 ∧
      ∀ p ∈ R1, p.2 ≠ []) :=
  toggle_round_trips voteDB userA "s1" "fire" subX1 selectedX groupGAB
    (by decide) (by decide) (by decide) (by decide) (by decide) (by decide)
    (by decide)

end Actify

namespace Actify

theorem find?_congr {p q : α → Bool} (l : List α)
    (h : ∀ x ∈ l, p x = q x) : l.find? p = l.find? q := by
  induction l with
  | nil => rfl
  | cons a as ih =>
    rw [List.find?_cons, List.find?_cons, h a (List.mem_cons_self a as)]
    cases q a with
    | true => rfl
    | false => exact ih (fun x hx => h x (List.mem_cons_of_mem a hx))

/-- With unique ids, updating the first document with a member's id rewrites
exactly that member, in place. -/
theorem updateFirst_of_nodup_mem {l : List Activity}
    (hnd : (l.map (fun a => a.id)).Nodup) {sel : Activity} (hmem : sel ∈ l)
    (f : Activity → Activity) :
    ∃ l₁ l₂, l = l₁ ++ sel :: l₂ ∧
      (∀ y ∈ l₁, (y.id == sel.id) = false) ∧
      (∀ y ∈ l₂, (y.id == sel.id) = false) ∧
      updateFirst (fun a => a.id == sel.id) f l = l₁ ++ f sel :: l₂ := by
  obtain ⟨l₁, l₂, rfl⟩ := List.append_of_mem hmem
  rw [List.map_append, List.map_cons] at hnd
  have h1 := (List.nodup_append.mp hnd).1
  have h2 := (List.nodup_append.mp hnd).2.1
  have hdisj := (List.nodup_append.mp hnd).2.2
  have hl1 : ∀ y ∈ l₁, (y.id == sel.id) = false := by
    intro y hy
    rw [beq_eq_false_iff_ne]
    intro hEq
    exact hdisj (hEq ▸ List.mem_map.mpr ⟨y, hy, rfl⟩) (List.mem_cons_self _ _)
  have hl2 : ∀ y ∈ l₂, (y.id == sel.id) = false := by
    intro y hy
    rw [beq_eq_false_iff_ne]
    intro hEq
    have := (List.nodup_cons.mp h2).1
    exact this (hEq ▸ List.mem_map.mpr ⟨y, hy, rfl⟩)
  refine ⟨l₁, l₂, rfl, hl1, hl2, ?_⟩
  rw [updateFirst_append_left _ hl1, updateFirst_cons]
  simp

/-- The member fan-out of SelectDaily leaves every non-notification
collection as it was. -/
theorem selectFold_core (group : Group) (cu : UserRec)
    (gid cname title : String) (dbStart : DB) :
    sameCore (group.members.foldl (fun d member_id =>
      if member_id == cu.id then d
      else create_notification d member_id
        ("New Daily Challenge in " ++ group.name)
        (cname ++ "'s activity '" ++ title ++
          "' has been selected for today's challenge!")
        "challenge" (some ("/groups/" ++ gid))) dbStart) dbStart := by
  apply foldl_notifyCore
  intro d m
  by_cases hc : (m == cu.id) = true
  · simp only [hc, if_true]
    exact sameCore_refl d
  · simp only [hc, Bool.false_eq_true, if_false, create_notification]
    exact ⟨rfl, rfl, rfl, rfl, rfl⟩

/-- Case analysis of SelectDaily for a member of an existing group: return
the already-selected activity unchanged, fail on an empty pending pool, or
stamp one pending activity of the group and touch nothing else (besides
notifications). -/
theorem select_daily_spec (db : DB) (cu : UserRec) (gid : String)
    (now pick : Nat) (group : Group)
    (hg : db.groups.find? (fun g => g.id == gid) = some group)
    (hm : group.members.contains cu.id = true) :
    (∃ a, db.activities.find? (fun x =>
        x.group_id == gid && inDayWindow now x.selected_for_date) = some a ∧
      select_daily_activity db cu gid now pick = (.ok a, db)) ∨
    (db.activities.find? (fun x =>
        x.group_id == gid && inDayWindow now x.selected_for_date) = none ∧
      select_daily_activity db cu gid now pick =
        (.error (.badRequest "No activities available to select"), db)) ∨
    (∃ sel, db.activities.find? (fun x =>
        x.group_id == gid && inDayWindow now x.selected_for_date) = none ∧
      sel ∈ db.activities ∧ (sel.group_id == gid) = true ∧
      sel.selected_for_date = none ∧
      (select_daily_activity db cu gid now pick).1 =
        .ok { sel with selected_for_date := some now } ∧
      (select_daily_activity db cu gid now pick).2.activities =
        updateFirst (fun a => a.id == sel.id)
          (fun a => { a with selected_for_date := some now }) db.activities ∧
      (select_daily_activity db cu gid now pick).2.groups = db.groups) := by
  unfold select_daily_activity
  simp only [hg, hm, Bool.not_true, Bool.false_eq_true, if_false]
  split
  · rename_i a hf
    exact Or.inl ⟨a, hf, rfl⟩
  · rename_i hf
    split
    · exact Or.inr (Or.inl ⟨hf, rfl⟩)
    · rename_i p ps hp
      have hmemfil : (p :: ps).get ⟨pick % (p :: ps).length,
          Nat.mod_lt _ (Nat.succ_pos _)⟩ ∈
          db.activities.filter (fun a =>
            a.group_id == gid && a.selected_for_date == none) := by
        rw [hp]
        exact List.get_mem _ _ _
      have hmf := List.mem_filter.mp hmemfil
      have hand := (Bool.and_eq_true _ _).mp hmf.2
      refine Or.inr (Or.inr ⟨_, hf, hmf.1, hand.1, beq_iff_eq.mp hand.2,
        rfl, ?_, ?_⟩)
      · dsimp only
        rw [(selectFold_core group cu gid _ _ _).2.2.1]
      · dsimp only
        rw [(selectFold_core group cu gid _ _ _).2.1]

end Actify

namespace Actify

/-- If some activity of the group is already stamped inside today's window,
SelectDaily returns the first such activity and changes nothing. -/
theorem select_found (db : DB) (cu : UserRec) (gid : String) (now pick : Nat)
    (group : Group) (a : Activity)
    (hg : db.groups.find? (fun g => g.id == gid) = some group)
    (hm : group.members.contains cu.id = true)
    (hf : db.activities.find? (fun x =>
      x.group_id == gid && inDayWindow now x.selected_for_date) = some a) :
    select_daily_activity db cu gid now pick = (.ok a, db) := by
  unfold select_daily_activity
  simp only [hg, hm, Bool.not_true, Bool.false_eq_true, if_false, hf]

/-- C2: SelectDaily is idempotent per group and UTC day: if an activity of
the group is already stamped inside the day window it is returned unchanged;
after any successful call, a second call on the same day (by any member, any
random pick) returns the identical activity and leaves the store exactly as
it was (no re-stamp, no new notifications); and each call preserves the
at-most-one-selected-per-day-window invariant. -/
theorem select_daily_idempotent (db : DB) (cu cu2 : UserRec) (gid : String)
    (now now2 pick pick2 : Nat) (group : Group)
    (hg : db.groups.find? (fun g => g.id == gid) = some group)
    (hm : group.members.contains cu.id = true)
    (hm2 : group.members.contains cu2.id = true)
    (hmid : midnightOf now2 = midnightOf now)
    (hnodup : (db.activities.map (fun a => a.id)).Nodup) :
    (∀ a, db.activities.find? (fun x =>
        x.group_id == gid && inDayWindow now x.selected_for_date) = some a →
      select_daily_activity db cu gid now pick = (.ok a, db)) ∧
    (∀ a, (select_daily_activity db cu gid now pick).1 = .ok a →
      select_daily_activity ((select_daily_activity db cu gid now pick).2)
          cu2 gid now2 pick2 =
        (.ok a, (select_daily_activity db cu gid now pick).2)) ∧
    (atMostOneSelectedPerDay db gid →
      atMostOneSelectedPerDay ((select_daily_activity db cu gid now pick).2) gid) := by
  have hcongr : ∀ t t2 : Nat, midnightOf t2 = midnightOf t →
      ∀ x : Activity, (x.group_id == gid && inDayWindow t2 x.selected_for_date) =
        (x.group_id == gid && inDayWindow t x.selected_for_date) := by
    intro t t2 ht x
    rw [inDayWindow_congr ht]
  refine ⟨?_, ?_, ?_⟩
  · intro a hf
    exact select_found db cu gid now pick group a hg hm hf
  · intro a h1
    rcases select_daily_spec db cu gid now pick group hg hm with
      ⟨a1, hf, heq⟩ | ⟨hf, heq⟩ |
      ⟨sel, hf, hmem, hgid, hnonesel, hok1, hacts1, hgroups1⟩
    · rw [heq] at h1 ⊢
      simp only at h1
      have hfa : a1 = a := by simpa using h1
      subst hfa
      have hf2 : db.activities.find? (fun x =>
          x.group_id == gid && inDayWindow now2 x.selected_for_date) = some a1 := by
        rw [find?_congr db.activities (fun x _ => hcongr now now2 hmid x)]
        exact hf
      exact select_found db cu2 gid now2 pick2 group a1 hg hm2 hf2
    · rw [heq] at h1
      simp at h1
    · have haeq : a = { sel with selected_for_date := some now } := by
        rw [hok1] at h1
        simpa using h1.symm
      subst haeq
      obtain ⟨l₁, l₂, hdec, hl1, hl2, hupd⟩ :=
        updateFirst_of_nodup_mem hnodup hmem
          (fun a => { a with selected_for_date := some now })
      have hnomatch : ∀ x ∈ db.activities,
          (x.group_id == gid && inDayWindow now2 x.selected_for_date) = false := by
        intro x hx
        rw [hcongr now now2 hmid x]
        have := List.find?_eq_none.mp hf x hx
        exact Bool.not_eq_true _ ▸ (by simpa using this)
      have hg1 : (select_daily_activity db cu gid now pick).2.groups.find?
          (fun g => g.id == gid) = some group := by
        rw [hgroups1]
        exact hg
      have hstamped : (({ sel with selected_for_date := some now }
          : Activity).group_id == gid &&
          inDayWindow now2 ({ sel with selected_for_date := some now }
            : Activity).selected_for_date) = true := by
        rw [Bool.and_eq_true]
        refine ⟨hgid, ?_⟩
        exact inDayWindow_iff_midnight_eq.mpr (by rw [hmid])
      have hf2 : (select_daily_activity db cu gid now pick).2.activities.find?
          (fun x => x.group_id == gid && inDayWindow now2 x.selected_for_date) =
          some { sel with selected_for_date := some now } := by
        rw [hacts1, hupd]
        rw [find?_append_left_none (fun y hy =>
          hnomatch y (hdec ▸ List.mem_append.mpr (Or.inl hy)))]
        rw [List.find?_cons]
        rw [hstamped]
      exact select_found _ cu2 gid now2 pick2 group _ hg1 hm2 hf2
  · intro hinv
    rcases select_daily_spec db cu gid now pick group hg hm with
      ⟨a1, hf, heq⟩ | ⟨hf, heq⟩ |
      ⟨sel, hf, hmem, hgid, hnonesel, hok1, hacts1, hgroups1⟩
    · rw [heq]
      exact hinv
    · rw [heq]
      exact hinv
    · intro t
      obtain ⟨l₁, l₂, hdec, hl1, hl2, hupd⟩ :=
        updateFirst_of_nodup_mem hnodup hmem
          (fun a => { a with selected_for_date := some now })
      rw [hacts1, hupd, List.filter_append, List.length_append,
        List.filter_cons]
      by_cases hmid2 : midnightOf t = midnightOf now
      · have hzero : ∀ x ∈ db.activities,
            (x.group_id == gid && inDayWindow t x.selected_for_date) = false := by
          intro x hx
          rw [hcongr now t hmid2 x]
          have := List.find?_eq_none.mp hf x hx
          exact Bool.not_eq_true _ ▸ (by simpa using this)
        have hnil1 : l₁.filter (fun a =>
            a.group_id == gid && inDayWindow t a.selected_for_date) = [] := by
          rw [List.filter_eq_nil_iff]
          intro x hx
          simp [hzero x (hdec ▸ List.mem_append.mpr (Or.inl hx))]
        have hnil2 : l₂.filter (fun a =>
            a.group_id == gid && inDayWindow t a.selected_for_date) = [] := by
          rw [List.filter_eq_nil_iff]
          intro x hx
          simp [hzero x (hdec ▸ List.mem_append.mpr
            (Or.inr (List.mem_cons_of_mem _ hx)))]
        rw [hnil1, hnil2]
        split <;> simp
      · have hstampf : (({ sel with selected_for_date := some now }
            : Activity).group_id == gid &&
            inDayWindow t ({ sel with selected_for_date := some now }
              : Activity).selected_for_date) = false := by
          have hwin : inDayWindow t (some now) = false := by
            cases hw : inDayWindow t (some now) with
            | false => rfl
            | true => exact absurd (inDayWindow_iff_midnight_eq.mp hw).symm hmid2
          show (sel.group_id == gid && inDayWindow t (some now)) = false
          rw [hwin, Bool.and_false]
        rw [hstampf]
        have hold := hinv t
        rw [hdec, List.filter_append, List.length_append, List.filter_cons] at hold
        have hselnone : (sel.group_id == gid &&
            inDayWindow t sel.selected_for_date) = false := by
          rw [hnonesel]
          show (sel.group_id == gid && false) = false
          rw [Bool.and_false]
        rw [hselnone] at hold
        simp only [Bool.false_eq_true, if_false] at hold ⊢
        exact hold

end Actify

namespace Actify

/-- Witness for C2: A triggers selection of the single pending activity at
second 100; a repeat call later the same day (second 200, different random
pick) returns the very same stamped activity and leaves the store as it
was after the first call. -/
theorem select_daily_idempotent_witness :
    select_daily_activity ((select_daily_activity pendingDB userA "g" 100 0).2)
        userA "g" 200 7 =
      (.ok { pendingX with selected_for_date := some 100 },
        (select_daily_activity pendingDB userA "g" 100 0).2) :=
  (select_daily_idempotent pendingDB userA userA "g" 100 200 0 7 groupGA
    (by decide) (by decide) (by decide) (by decide) (by decide)).2.1
    { pendingX with selected_for_date := some 100 } (by rfl)

end Actify

namespace Actify


theorem scoreInner_map (subs : List Submission) :
    ∀ es : List LeaderboardEntry,
    subs.foldl (fun es2 submission =>
      es2.map (fun e =>
        if e.user_id == submission.user_id then
          { e with score := e.score + submissionPoints submission }
        else e)) es =
    es.map (fun e => { e with score := e.score +
      ((subs.filter (fun s => e.user_id == s.user_id)).map
        submissionPoints).sum }) := by
  induction subs with
  | nil =>
    intro es
    simp only [List.foldl_nil, List.filter_nil, List.map_nil, List.sum_nil,
      add_zero]
    have hid : (fun e : LeaderboardEntry => { e with score := e.score }) =
        fun e => e := by
      funext e
      rfl
    rw [hid, List.map_id']
  | cons s rest ih =>
    intro es
    rw [List.foldl_cons, ih, List.map_map]
    apply List.map_congr_left
    intro e _
    simp only [Function.comp]
    cases heq : e.user_id == s.user_id with
    | true => simp [heq, List.filter_cons, add_assoc]
    | false => simp [heq, List.filter_cons]

end Actify

namespace Actify

theorem scoreOuter_map (db : DB) (acts : List Activity) :
    ∀ es : List LeaderboardEntry,
    acts.foldl
      (fun es activity =>
        (db.submissions.filter (fun s => s.activity_id == activity.id)).foldl
          (fun es2 submission =>
            es2.map (fun e =>
              if e.user_id == submission.user_id then
                { e with score := e.score + submissionPoints submission }
              else e)) es) es =
    es.map (fun e => { e with score := e.score +
      (acts.map (fun a => perActivityScore db e.user_id a.id)).sum }) := by
  induction acts with
  | nil =>
    intro es
    simp only [List.foldl_nil, List.map_nil, List.sum_nil, add_zero]
    have hid : (fun e : LeaderboardEntry => { e with score := e.score }) =
        fun e => e := by
      funext e
      rfl
    rw [hid, List.map_id']
  | cons a rest ih =>
    intro es
    rw [List.foldl_cons, scoreInner_map, ih, List.map_map]
    apply List.map_congr_left
    intro e _
    simp only [Function.comp, perActivityScore, List.map_cons, List.sum_cons]
    rw [add_assoc]

end Actify

namespace Actify

theorem sum_filter_or_disjoint (f : Submission → Rat) (p q : Submission → Bool) :
    ∀ l : List Submission, (∀ x ∈ l, ¬(p x = true ∧ q x = true)) →
    ((l.filter (fun x => p x || q x)).map f).sum =
      ((l.filter p).map f).sum + ((l.filter q).map f).sum := by
  intro l
  induction l with
  | nil => intro _; simp
  | cons x xs ih =>
    intro hdisj
    have hx := hdisj x (by simp)
    have hrest : ∀ y ∈ xs, ¬(p y = true ∧ q y = true) := by
      intro y hy
      exact hdisj y (by simp [hy])
    cases hp : p x with
    | true =>
      have hq : q x = false := by
        cases hq2 : q x with
        | true => exact absurd ⟨hp, hq2⟩ hx
        | false => rfl
      simp only [List.filter_cons, hp, hq, Bool.true_or, if_true,
        Bool.false_eq_true, if_false, List.map_cons, List.sum_cons, ih hrest]
      rw [add_assoc]
    | false =>
      cases hq : q x with
      | true =>
        simp only [List.filter_cons, hp, hq, Bool.false_or, if_true,
          Bool.false_eq_true, if_false, List.map_cons, List.sum_cons, ih hrest]
        rw [add_left_comm]
      | false =>
        simp only [List.filter_cons, hp, hq, Bool.false_or, Bool.false_eq_true,
          if_false, ih hrest]

end Actify

namespace Actify

theorem perActivityScore_eq (db : DB) (uid aid : String) :
    perActivityScore db uid aid =
    ((db.submissions.filter (fun s =>
      s.user_id == uid && s.activity_id == aid)).map submissionPoints).sum := by
  unfold perActivityScore
  rw [List.filter_filter]
  have hfun : (fun s : Submission => uid == s.user_id && s.activity_id == aid) =
      (fun s : Submission => s.user_id == uid && s.activity_id == aid) := by
    funext s
    rw [Bool.beq_comm]
  rw [hfun]

theorem sum_ids (db : DB) (uid : String) :
    ∀ ids : List String, ids.Nodup →
    (ids.map (fun aid => perActivityScore db uid aid)).sum =
    ((db.submissions.filter (fun s =>
      s.user_id == uid && ids.contains s.activity_id)).map submissionPoints).sum := by
  intro ids
  induction ids with
  | nil =>
    intro _
    simp
  | cons aid ids ih =>
    intro hnd
    have hnotmem : aid ∉ ids := by
      intro hmem
      exact (List.nodup_cons.mp hnd).1 hmem
    have hnd2 : ids.Nodup := (List.nodup_cons.mp hnd).2
    have hsplit : (fun s : Submission =>
        s.user_id == uid && (aid :: ids).contains s.activity_id) =
        (fun s : Submission =>
          (s.user_id == uid && s.activity_id == aid) ||
          (s.user_id == uid && ids.contains s.activity_id)) := by
      funext s
      rw [List.contains_cons, Bool.and_or_distrib_left]
    rw [List.map_cons, List.sum_cons, perActivityScore_eq, ih hnd2, hsplit]
    rw [sum_filter_or_disjoint]
    intro x _ hpq
    have h1 : x.activity_id = aid := by
      have := (Bool.and_eq_true _ _).mp hpq.1
      exact eq_of_beq this.2
    have h2 : x.activity_id ∈ ids := by
      have := (Bool.and_eq_true _ _).mp hpq.2
      have hc := this.2
      simp at hc
      exact hc
    rw [h1] at h2
    exact hnotmem h2

end Actify

namespace Actify

theorem scoreByActivities_eq_groupScore (db : DB) (gid uid : String)
    (hnd : (groupActivityIds db gid).Nodup) :
    scoreByActivities db gid uid = groupScore db gid uid := by
  unfold scoreByActivities groupScore
  rw [← sum_ids db uid (groupActivityIds db gid) hnd]
  unfold groupActivityIds
  rw [List.map_map]
  rfl

theorem mem_insertByScore {x y : LeaderboardEntry} :
    ∀ {l : List LeaderboardEntry}, x ∈ insertByScore y l ↔ x = y ∨ x ∈ l := by
  intro l
  induction l with
  | nil => simp [insertByScore]
  | cons z zs ih =>
    unfold insertByScore
    by_cases h : z.score ≤ y.score
    · simp [h]
    · simp only [h, if_false, List.mem_cons, ih]
      tauto

theorem mem_sortByScoreDesc {x : LeaderboardEntry} :
    ∀ {l : List LeaderboardEntry}, x ∈ sortByScoreDesc l ↔ x ∈ l := by
  intro l
  induction l with
  | nil => simp [sortByScoreDesc]
  | cons z zs ih =>
    unfold sortByScoreDesc
    rw [mem_insertByScore]
    simp [ih]

theorem mem_assignRanks :
    ∀ (l : List LeaderboardEntry) (i : Nat), ∀ e ∈ assignRanks i l,
      ∃ e2 ∈ l, e.score = e2.score ∧ e.user_id = e2.user_id := by
  intro l
  induction l with
  | nil => intro i e he; simp [assignRanks] at he
  | cons z zs ih =>
    intro i e he
    unfold assignRanks at he
    rcases List.mem_cons.mp he with h | h
    · exact ⟨z, by simp, by rw [h], by rw [h]⟩
    · obtain ⟨e2, hm, hs, hu⟩ := ih (i + 1) e h
      exact ⟨e2, by simp [hm], hs, hu⟩

theorem buildEntry_some {db : DB} {gid m : String} {prev : Option Snapshot}
    {e : LeaderboardEntry} (h : buildEntry db gid prev m = some e) :
    e.score = 0 ∧ e.user_id = m := by
  unfold buildEntry at h
  cases hf : db.users.find? (fun u => u.id == m) with
  | none => rw [hf] at h; simp at h
  | some user =>
    rw [hf] at h
    simp only [Option.map] at h
    have hp := List.find?_some hf
    have huid : user.id = m := eq_of_beq (by simpa using hp)
    cases h
    exact ⟨rfl, huid⟩

end Actify

namespace Actify

theorem scoreEntries_eq_map (db : DB) (gid : String)
    (es : List LeaderboardEntry) :
    scoreEntries db gid es =
    es.map (fun e =>
      { e with score := e.score + scoreByActivities db gid e.user_id }) := by
  unfold scoreEntries
  rw [scoreOuter_map]
  rfl

theorem leaderboard_ok_shape (db : DB) (cu : UserRec) (gid : String)
    (now : Nat) (L : List LeaderboardEntry)
    (hok : (get_group_leaderboard db cu gid now).1 = .ok L) :
    ∃ group, db.groups.find? (fun g => g.id == gid) = some group ∧
      group.members.contains cu.id = true ∧
      L = assignRanks 1 (sortByScoreDesc (scoreEntries db gid
        (group.members.filterMap
          (buildEntry db gid (latestSnapshot db gid))))) := by
  unfold get_group_leaderboard at hok
  cases hg : db.groups.find? (fun g => g.id == gid) with
  | none => rw [hg] at hok; simp at hok
  | some group =>
    rw [hg] at hok
    cases hm : group.members.contains cu.id with
    | false => simp only [hm, Bool.not_false, if_true] at hok; simp at hok
    | true =>
      simp only [hm, Bool.not_true, Bool.false_eq_true, if_false] at hok
      simp only [Except.ok.injEq] at hok
      exact ⟨group, rfl, hm, hok.symm⟩

end Actify

namespace Actify

/-- C1: every entry of a successfully computed leaderboard carries the score
given by the additive formula: 1 point per submission by that member on the
group's activities, plus 1 point per vote on each such submission, plus half
a point per reaction summed over all emoji keys (`groupScore`); scores are
rationals, so half-points are represented exactly. Stated under distinctness
of the group's activity ids (ids are generated uuids). -/
theorem leaderboard_score_formula (db : DB) (cu : UserRec) (gid : String)
    (now : Nat) (L : List LeaderboardEntry)
    (hnd : (groupActivityIds db gid).Nodup)
    (hok : (get_group_leaderboard db cu gid now).1 = .ok L) :
    ∀ e ∈ L, e.score = groupScore db gid e.user_id := by
  intro e he
  obtain ⟨group, hg, hm, hL⟩ := leaderboard_ok_shape db cu gid now L hok
  rw [hL] at he
  obtain ⟨e2, he2, hs, hu⟩ := mem_assignRanks _ 1 e he
  rw [mem_sortByScoreDesc] at he2
  rw [scoreEntries_eq_map] at he2
  obtain ⟨e0, he0, heq⟩ := List.mem_map.mp he2
  obtain ⟨m, hmm, hbuild⟩ := List.mem_filterMap.mp he0
  obtain ⟨hscore0, _⟩ := buildEntry_some hbuild
  have hs2 : e2.score = scoreByActivities db gid e2.user_id := by
    rw [← heq]
    simp only [← heq] at *
    rw [hscore0, zero_add]
  rw [hs, hu, hs2, scoreByActivities_eq_groupScore db gid _ hnd]

end Actify

namespace Actify


/-- Witness for C1: on the concrete store, every returned entry's score is
the formula value; A's voted-and-reacted submission is worth 7/2 = 3.5
points (fractional) and B's bare submission exactly 1. -/
theorem leaderboard_score_formula_witness :
    (groupActivityIds richDB "g").Nodup ∧
    (∀ e ∈ richL, e.score = groupScore richDB "g" e.user_id) ∧
    groupScore richDB "g" "A" = 7 / 2 ∧
    groupScore richDB "g" "B" = 1 :=
  ⟨by decide,
   leaderboard_score_formula richDB userA "g" 99 richL (by decide) (by rfl),
   by norm_num +decide [groupScore, groupActivityIds, richDB, subRich, subX1,
     selectedX, submissionPoints, groupGAB, List.filter_cons, List.filter_nil],
   by norm_num +decide [groupScore, groupActivityIds, richDB, subRich, subX1,
     selectedX, submissionPoints, groupGAB, List.filter_cons, List.filter_nil]⟩

end Actify

namespace Actify

theorem length_insertByScore (x : LeaderboardEntry) :
    ∀ l : List LeaderboardEntry, (insertByScore x l).length = l.length + 1 := by
  intro l
  induction l with
  | nil => rfl
  | cons y ys ih =>
    unfold insertByScore
    by_cases h : y.score ≤ x.score
    · simp [h]
    · simp [h, ih]

theorem length_sortByScoreDesc :
    ∀ l : List LeaderboardEntry, (sortByScoreDesc l).length = l.length := by
  intro l
  induction l with
  | nil => rfl
  | cons y ys ih =>
    unfold sortByScoreDesc
    rw [length_insertByScore, ih]
    rfl

theorem length_assignRanks :
    ∀ (l : List LeaderboardEntry) (i : Nat),
      (assignRanks i l).length = l.length := by
  intro l
  induction l with
  | nil => intro i; rfl
  | cons y ys ih =>
    intro i
    unfold assignRanks
    simp [ih]

theorem get_assignRanks :
    ∀ (l : List LeaderboardEntry) (i j : Nat)
      (h : j < (assignRanks i l).length),
      ((assignRanks i l).get ⟨j, h⟩).rank = i + j := by
  intro l
  induction l with
  | nil => intro i j h; simp [assignRanks] at h
  | cons y ys ih =>
    intro i j h
    cases j with
    | zero => rfl
    | succ k =>
      have hk : k < (assignRanks (i + 1) ys).length := by
        have := h
        simp only [assignRanks, List.length_cons] at this
        exact Nat.lt_of_succ_lt_succ this
      have := ih (i + 1) k hk
      simp only [assignRanks, List.get_cons_succ]
      rw [this]
      omega

theorem pairwise_insertByScore (x : LeaderboardEntry) :
    ∀ l : List LeaderboardEntry,
      l.Pairwise (fun a b => b.score ≤ a.score) →
      (insertByScore x l).Pairwise (fun a b => b.score ≤ a.score) := by
  intro l
  induction l with
  | nil => intro _; simp [insertByScore]
  | cons y ys ih =>
    intro hp
    obtain ⟨hy, hys⟩ := List.pairwise_cons.mp hp
    unfold insertByScore
    by_cases h : y.score ≤ x.score
    · simp only [h, if_true]
      refine List.pairwise_cons.mpr ⟨?_, hp⟩
      intro b hb
      rcases List.mem_cons.mp hb with rfl | hb2
      · exact h
      · exact le_trans (hy b hb2) h
    · simp only [h, if_false]
      refine List.pairwise_cons.mpr ⟨?_, ih hys⟩
      intro b hb
      rcases mem_insertByScore.mp hb with rfl | hb2
      · exact le_of_lt (lt_of_not_le h)
      · exact hy b hb2

theorem sorted_sortByScoreDesc :
    ∀ l : List LeaderboardEntry,
      (sortByScoreDesc l).Pairwise (fun a b => b.score ≤ a.score) := by
  intro l
  induction l with
  | nil => simp [sortByScoreDesc]
  | cons y ys ih =>
    unfold sortByScoreDesc
    exact pairwise_insertByScore y _ ih

theorem pairwise_assignRanks :
    ∀ (l : List LeaderboardEntry) (i : Nat),
      l.Pairwise (fun a b => b.score ≤ a.score) →
      (assignRanks i l).Pairwise (fun a b => b.score ≤ a.score) := by
  intro l
  induction l with
  | nil => intro i _; simp [assignRanks]
  | cons y ys ih =>
    intro i hp
    obtain ⟨hy, hys⟩ := List.pairwise_cons.mp hp
    unfold assignRanks
    refine List.pairwise_cons.mpr ⟨?_, ih (i + 1) hys⟩
    intro b hb
    obtain ⟨b2, hm, hs, _⟩ := mem_assignRanks ys (i + 1) b hb
    rw [hs]
    exact hy b2 hm

end Actify

namespace Actify

theorem filter_assignRanks_map (q : Rat) :
    ∀ (l : List LeaderboardEntry) (i : Nat),
      ((assignRanks i l).filter (fun e => decide (e.score = q))).map
        (fun e => e.user_id) =
      (l.filter (fun e => decide (e.score = q))).map (fun e => e.user_id) := by
  intro l
  induction l with
  | nil => intro i; rfl
  | cons y ys ih =>
    intro i
    unfold assignRanks
    rw [List.filter_cons, List.filter_cons]
    by_cases h : y.score = q
    · simp [h, ih]
    · simp [h, ih]

theorem filter_insertByScore (q : Rat) (x : LeaderboardEntry) :
    ∀ l : List LeaderboardEntry,
      (insertByScore x l).filter (fun e => decide (e.score = q)) =
      if x.score = q then x :: l.filter (fun e => decide (e.score = q))
      else l.filter (fun e => decide (e.score = q)) := by
  intro l
  induction l with
  | nil =>
    unfold insertByScore
    by_cases h : x.score = q
    · simp [h]
    · simp [h]
  | cons y ys ih =>
    unfold insertByScore
    by_cases hle : y.score ≤ x.score
    · simp only [hle, if_true]
      rw [List.filter_cons]
      by_cases hx : x.score = q
      · simp [hx]
      · simp [hx]
    · simp only [hle, if_false]
      rw [List.filter_cons, ih, List.filter_cons]
      by_cases hy : y.score = q
      · have hx : ¬(x.score = q) := by
          intro hx
          exact hle (by rw [hx, hy])
        simp [hy, hx]
      · simp [hy]

theorem filter_sortByScoreDesc (q : Rat) :
    ∀ l : List LeaderboardEntry,
      (sortByScoreDesc l).filter (fun e => decide (e.score = q)) =
      l.filter (fun e => decide (e.score = q)) := by
  intro l
  induction l with
  | nil => rfl
  | cons y ys ih =>
    unfold sortByScoreDesc
    rw [filter_insertByScore, List.filter_cons, ih]
    by_cases h : y.score = q
    · simp [h]
    · simp [h]

theorem filterMap_buildEntry_map_user (db : DB) (gid : String)
    (prev : Option Snapshot) :
    ∀ ms : List String,
      (∀ m ∈ ms, (db.users.find? (fun u => u.id == m)).isSome = true) →
      ((ms.filterMap (buildEntry db gid prev)).map (fun e => e.user_id)) =
        ms := by
  intro ms
  induction ms with
  | nil => intro _; rfl
  | cons m ms ih =>
    intro hres
    have hm := hres m (by simp)
    have hsome : (buildEntry db gid prev m).isSome = true := by
      unfold buildEntry
      cases hf : db.users.find? (fun u => u.id == m) with
      | none => rw [hf] at hm; simp at hm
      | some user => simp only [hf, Option.map]; rfl
    obtain ⟨e2, hb⟩ := Option.isSome_iff_exists.mp hsome
    rw [List.filterMap_cons, hb]
    have ⟨_, hu⟩ := buildEntry_some hb
    rw [List.map_cons, hu, ih (fun m2 hm2 => hres m2 (by simp [hm2]))]

end Actify

namespace Actify

theorem scoreEntries_map_user (db : DB) (gid : String)
    (es : List LeaderboardEntry) :
    (scoreEntries db gid es).map (fun e => e.user_id) =
      es.map (fun e => e.user_id) := by
  rw [scoreEntries_eq_map, List.map_map]
  rfl

/-- C5: a successfully computed leaderboard has one entry per resolvable
member; here every member resolves, so the list has exactly N entries,
ranks are the dense positions 1..N, scores are non-increasing down the
list, and within any exact score tie the entries keep the order of the
pre-sort pass, which lists members in group member-list order (the last
two conjuncts: filtering any score class commutes with the sort-and-rank
stage, and the pre-sort pass enumerates exactly `group.members` in
order). -/
theorem leaderboard_sorted_dense_stable (db : DB) (cu : UserRec)
    (gid : String) (now : Nat) (group : Group) (L : List LeaderboardEntry)
    (hg : db.groups.find? (fun g => g.id == gid) = some group)
    (hres : ∀ m ∈ group.members,
      (db.users.find? (fun u => u.id == m)).isSome = true)
    (hok : (get_group_leaderboard db cu gid now).1 = .ok L) :
    L.length = group.members.length ∧
    (∀ i (h : i < L.length), (L.get ⟨i, h⟩).rank = i + 1) ∧
    L.Pairwise (fun a b => b.score ≤ a.score) ∧
    (∀ q : Rat,
      (L.filter (fun e => decide (e.score = q))).map (fun e => e.user_id) =
      ((scoreEntries db gid (group.members.filterMap
          (buildEntry db gid (latestSnapshot db gid)))).filter
        (fun e => decide (e.score = q))).map (fun e => e.user_id)) ∧
    (scoreEntries db gid (group.members.filterMap
        (buildEntry db gid (latestSnapshot db gid)))).map
      (fun e => e.user_id) = group.members := by
  obtain ⟨group2, hg2, hm2, hL⟩ := leaderboard_ok_shape db cu gid now L hok
  rw [hg] at hg2
  injection hg2 with hgg
  subst hgg
  subst hL
  have hmap := filterMap_buildEntry_map_user db gid (latestSnapshot db gid)
    group.members hres
  have hlen0 := congrArg List.length hmap
  rw [List.length_map] at hlen0
  refine ⟨?_, ?_, ?_, ?_, ?_⟩
  · rw [length_assignRanks, length_sortByScoreDesc,
      scoreEntries_eq_map, List.length_map]
    exact hlen0
  · intro i h
    rw [get_assignRanks _ 1 i h]
    omega
  · exact pairwise_assignRanks _ 1 (sorted_sortByScoreDesc _)
  · intro q
    rw [filter_assignRanks_map, filter_sortByScoreDesc]
  · rw [scoreEntries_map_user]
    exact hmap

end Actify

namespace Actify


/-- Witness for C5: with both members tied at score zero, the returned
board keeps member-list order A before B and assigns the dense ranks 1
and 2. -/
theorem leaderboard_sorted_dense_stable_witness :
    ((get_group_leaderboard tieDB userA "g" 50).1 = .ok tieL) ∧
    (∀ i (h : i < tieL.length), (tieL.get ⟨i, h⟩).rank = i + 1) ∧
    tieL.map (fun e => (e.user_id, e.rank)) = [("A", 1), ("B", 2)] :=
  ⟨by rfl,
   (leaderboard_sorted_dense_stable tieDB userA "g" 50 groupGAB tieL
     (by rfl) (by decide) (by rfl)).2.1,
   by rfl⟩

end Actify
